import Mathlib

/-!
# werf: remote git repository cache and patch engine

A shallow embedding of `pkg/git_repo/remote.go` and `pkg/true_git/patch.go`.

* Go strings are Lean `String`s; Go `int` is `Int`.
* A Go function returning `(T, error)` returns `Except String T`; a Go function
  returning only `error` returns `Option String` (`none` is `nil`). An error is
  represented by its message (`err.Error()`), so `fmt.Errorf("x: %s", err)` is
  string concatenation.
* Calls into the operating system, go-git, ini.v1 and the lock service act on an
  explicit `World`; what each of them answers is fixed by a `Faults` record, one
  field per call site, and every such call is appended to a trace.
* One caller runs at a time, but the world may move while it waits for the host
  lock: another caller may have completed the clone of the same clone path by the
  time the lock is granted (`Faults.arrived`, `World.arrive`).
* The endpoint of a url is resolved by `transport.NewEndpoint`, modelled from the
  specification for urls of the form `scheme://authority[path]`.
-/

namespace Werf

deriving instance DecidableEq for Except

/-! ## Go standard library: `path/filepath` on Unix -/

namespace filepath

/-- The elements of a path between separators, as `strings.Split(path, "/")`. -/
def splitElems : List Char → List (List Char)
  | [] => [[]]
  | c :: cs =>
    if c = '/' then [] :: splitElems cs
    else
      match splitElems cs with
      | [] => [[c]]
      | e :: es => (c :: e) :: es

/-- One round of the loop of `Clean`, on the output elements kept so far
(last element first): an empty element and `.` are dropped, `..` removes the
last real element when there is one, is kept on a relative path that cannot
backtrack, and is dropped at the root; any other element is appended. -/
def cleanStep (rooted : Bool) (out : List (List Char)) (e : List Char) : List (List Char) :=
  if e = [] then out
  else if e = ['.'] then out
  else if e = ['.', '.'] then
    match out with
    | top :: rest => if top = ['.', '.'] then e :: out else rest
    | [] => if rooted then [] else [e]
  else e :: out

/-- The body of `Clean`, on the characters of a path. -/
def cleanChars (path : List Char) : List Char :=
  match path with
  | [] => ['.']
  | c :: _ =>
    let rooted : Bool := c = '/'
    let out := (splitElems path).foldl (cleanStep rooted) []
    let body := List.intercalate ['/'] out.reverse
    let res := if rooted then '/' :: body else body
    if res = [] then ['.'] else res

/-- Go `filepath.Clean`: the shortest path name equivalent to `path`. -/
def Clean (path : String) : String :=
  String.mk (cleanChars path.data)

/-- Go `filepath.Join`: leading empty elements are skipped, the rest is joined
with the separator and cleaned; the result is empty when every element is. -/
def Join : List String → String
  | [] => ""
  | e :: es => if e = "" then Join es else Clean ("/".intercalate (e :: es))

/-- Go `filepath.IsAbs`. -/
def IsAbs (path : String) : Bool :=
  match path.data with
  | c :: _ => c = '/'
  | [] => false

/-- Go `filepath.Abs`; `wd` is the answer of `os.Getwd`. -/
def Abs (wd : Except String String) (path : String) : Except String String :=
  if IsAbs path then .ok (Clean path)
  else
    match wd with
    | .error e => .error e
    | .ok d => .ok (Join [d, path])

/-- The characters of a path up to and including its last separator. -/
def dirChars (path : List Char) : List Char :=
  (path.reverse.dropWhile (fun c => c != '/')).reverse

/-- Go `filepath.Dir`: all but the last element of the path, cleaned. -/
def Dir (path : String) : String :=
  String.mk (cleanChars (dirChars path.data))

end filepath

/-! ## `pkg/git_repo/remote.go`: the data model -/

/-- The fields of go-git's `transport.Endpoint`. -/
structure Endpoint where
  Protocol : String
  User : String
  Password : String
  Host : String
  Port : Int
  Path : String
  deriving DecidableEq, Repr

/-- The struct `Remote`: `Name` is the field of the embedded `Base`; `Endpoint` is
the endpoint `ValidateEndpoint` stored. -/
structure Remote where
  Name : String
  Url : String
  IsDryRun : Bool
  Endpoint : Endpoint
  deriving DecidableEq, Repr

/-- Method `ValidateEndpoint`: `NewEndpoint` is go-git's `transport.NewEndpoint`. -/
def ValidateEndpoint (NewEndpoint : String → Except String Endpoint) (url : String) :
    Except String Endpoint :=
  match NewEndpoint url with
  | .error err => .error ("bad url '" ++ url ++ "': " ++ err)
  | .ok ep => .ok ep

/-- Function `OpenRemoteRepo`: a repository is returned only when the endpoint validates
(Go also hands back the struct without an endpoint next to the error). -/
def OpenRemoteRepo (NewEndpoint : String → Except String Endpoint) (name url : String) :
    Except String Remote :=
  match ValidateEndpoint NewEndpoint url with
  | .error err => .error err
  | .ok ep => .ok { Name := name, Url := url, IsDryRun := false, Endpoint := ep }

/-- Go `fmt.Sprintf("%d", n)` for an `int`. -/
def sprintfD (n : Int) : String := toString n

namespace Remote

/-- Method `getFilesystemRelativePathByEndpoint`. -/
def getFilesystemRelativePathByEndpoint (repo : Remote) : String :=
  let host := repo.Endpoint.Host
  let host := if repo.Endpoint.Port > 0 then host ++ (":" ++ sprintfD repo.Endpoint.Port) else host
  filepath.Join ["protocol-" ++ repo.Endpoint.Protocol, host, repo.Endpoint.Path]

/-- Method `GetClonePath`; `gitRepoCacheDir` is the answer of `GetGitRepoCacheDir()`. -/
def GetClonePath (gitRepoCacheDir : String) (repo : Remote) : String :=
  filepath.Join [gitRepoCacheDir, repo.getFilesystemRelativePathByEndpoint]

/-- Method `getRepoID`. -/
def getRepoID (repo : Remote) : String :=
  repo.getFilesystemRelativePathByEndpoint

/-- Method `getWorkTreeCacheDir`; `workTreeCacheDir` is the answer of `GetWorkTreeCacheDir()`. -/
def getWorkTreeCacheDir (workTreeCacheDir : String) (_repo : Remote) (repoID : String) : String :=
  filepath.Join [workTreeCacheDir, repoID]

/-- The lock name `withRemoteRepoLock` passes to `werf.WithHostLock`. -/
def lockName (repo : Remote) : String :=
  "remote_git_mapping." ++ repo.Name

end Remote

/-! ## The endpoint of a url -/

namespace transport

/-- The part of a list before the first `c` and the part after it. -/
def cut (c : Char) : List Char → Option (List Char × List Char)
  | [] => none
  | x :: xs =>
    if x = c then some ([], xs)
    else
      match cut c xs with
      | none => none
      | some (before, after) => some (x :: before, after)

/-- The part of a list before the last `c` and the part after it. -/
def cutLast (c : Char) (xs : List Char) : Option (List Char × List Char) :=
  match cut c xs.reverse with
  | none => none
  | some (afterRev, beforeRev) => some (beforeRev.reverse, afterRev.reverse)

/-- A url scheme: a letter followed by letters, digits, `+`, `-` and `.`. -/
def validScheme : List Char → Bool
  | [] => false
  | c :: cs => c.isAlpha && cs.all (fun x => x.isAlphanum || x == '+' || x == '-' || x == '.')

/-- The number written by a list of decimal digits. -/
def decimal (digits : List Char) : Nat :=
  digits.foldl (fun n c => 10 * n + (c.toNat - '0'.toNat)) 0

/-- The endpoint of the authority `[user[:password]@]host[:port]` and the path of
a url with the scheme `protocol`; the port is 0 when none is written. -/
def endpointOf (protocol : String) (authority path : List Char) : Endpoint :=
  let (userinfo, hostport) :=
    match cutLast '@' authority with
    | some (u, h) => (u, h)
    | none => ([], authority)
  let (user, password) :=
    match cut ':' userinfo with
    | some (u, p) => (u, p)
    | none => (userinfo, [])
  let (host, port) :=
    match cutLast ':' hostport with
    | some (h, p) => if p.all Char.isDigit then (h, decimal p) else (hostport, 0)
    | none => (hostport, 0)
  { Protocol := protocol, User := String.mk user, Password := String.mk password,
    Host := String.mk host, Port := (port : Int), Path := String.mk path }

/-- The url `scheme://authority[path]` after its scheme and the colon: the
endpoint is normalized, its protocol is the scheme in lower case. -/
def parseURL (endpoint : String) (scheme rest : List Char) : Except String Endpoint :=
  match rest with
  | '/' :: '/' :: rest =>
    if validScheme scheme then
      .ok (endpointOf (String.mk (scheme.map Char.toLower))
        (rest.takeWhile (fun c => c != '/')) (rest.dropWhile (fun c => c != '/')))
    else .error ("invalid endpoint: " ++ endpoint)
  | _ => .error ("invalid endpoint: " ++ endpoint)

/-- Modelled from the spec: `transport.NewEndpoint` of go-git is not under src/.
It resolves a normalized endpoint (protocol, host, optional port, path) from a
url of the form `scheme://[user[:password]@]host[:port][path]`, equivalent scheme
casings resolving to one protocol, and fails when the url cannot be parsed as a
git transport endpoint. Only this url form is modelled: every other endpoint is
answered with the error. -/
def NewEndpoint (endpoint : String) : Except String Endpoint :=
  match cut ':' endpoint.data with
  | none => .error ("invalid endpoint: " ++ endpoint)
  | some (scheme, rest) => parseURL endpoint scheme rest

end transport

/-! ## The cache directory, the external calls and their answers -/

/-- A parsed ini file: its sections, each with its keys and values. -/
abbrev Ini := List (String × List (String × String))

namespace Ini

/-- The stored value of a key, when the section and the key are present. -/
def get? (cfg : Ini) (sec key : String) : Option String :=
  match cfg.lookup sec with
  | none => none
  | some keys => keys.lookup key

/-- The value `cfg.Section(sec).Key(key).Value()`: ini.v1 creates a missing section or key
on access, with the empty value. -/
def keyValue (cfg : Ini) (sec key : String) : String :=
  (cfg.get? sec key).getD ""

/-- Set a key in a list of keys, appending it when missing. -/
def setKey : List (String × String) → String → String → List (String × String)
  | [], key, v => [(key, v)]
  | (k, x) :: rest, key, v => if k = key then (k, v) :: rest else (k, x) :: setKey rest key v

/-- The update `cfg.Section(sec).Key(key).SetValue(v)`. -/
def setValue : Ini → String → String → String → Ini
  | [], sec, key, v => [(sec, [(key, v)])]
  | (s, keys) :: rest, sec, key, v =>
    if s = sec then (s, setKey keys key v) :: rest else (s, keys) :: setValue rest sec key v

end Ini

/-- A repository directory: whether a fully successful clone produced it, what
`ini.Load` answers for its `config` file, and the urls it was fetched from. -/
structure RepoDir where
  complete : Bool
  config : Except String Ini
  fetched : List String
  deriving DecidableEq

/-- What is found at a path of the cache. -/
inductive Node where
  | absent
  | inaccessible (err : String)
  | dir (d : RepoDir)
  deriving DecidableEq

/-- The calls made on the operating system, go-git, ini.v1 and the lock service. -/
inductive Event where
  | stat (path : String)
  | acquire (lockName : String)
  | release (lockName : String)
  | mkdirAll (path : String)
  | removeAll (path : String)
  | plainClone (path url : String)
  | rename (oldPath newPath : String)
  | iniLoad (path : String)
  | iniSave (path : String)
  | plainOpen (path : String)
  | fetch (remoteName : String)
  deriving DecidableEq, Repr

/-- The part of the host that one remote repository touches: the directory that
holds the clone path, the clone path, its `.tmp` sibling, and the calls made so far
(latest last). -/
structure World where
  parent : Bool
  clone : Node
  tmp : Node
  trace : List Event
  deriving DecidableEq

/-- What `rawRepo.Fetch` answers. -/
inductive FetchAnswer where
  | done
  | alreadyUpToDate
  | failed (err : String)
  deriving DecidableEq

/-- The answers of the external calls, one field per call site of `Clone` and
`Fetch`: `none` is a `nil` error. `statErr` and `restatErr` are the errors other
than not-exist of the two `os.Stat` calls of `Clone`, before and under the lock.
`arrived` is what another caller did while this one waited for the lock: `some url`
when it completed the clone of the same clone path, from its own `url`. -/
structure Faults where
  lockErr : Option String
  mkdirErr : Option String
  removeStaleErr : Option String
  cloneErr : Option String
  renameErr : Option String
  cleanupErr : Option String
  saveErr : Option String
  openErr : Option String
  fetchAnswer : FetchAnswer
  statErr : Option String
  restatErr : Option String
  arrived : Option String

/-- Every external call succeeds. -/
def Faults.none : Faults :=
  { lockErr := Option.none, mkdirErr := Option.none, removeStaleErr := Option.none,
    cloneErr := Option.none, renameErr := Option.none, cleanupErr := Option.none,
    saveErr := Option.none, openErr := Option.none, fetchAnswer := .done,
    statErr := Option.none, restatErr := Option.none, arrived := Option.none }

namespace World

/-- Record a call. -/
def log (w : World) (e : Event) : World :=
  { w with trace := w.trace ++ [e] }

end World

/-- The section of the mirror config that holds the remote `remoteName`. -/
def remoteSection (remoteName : String) : String :=
  "remote \"" ++ remoteName ++ "\""

/-- The config file a bare clone of `url` starts with. -/
def clonedConfig (url : String) : Ini :=
  [("core", [("bare", "true")]), (remoteSection "origin", [("url", url)])]

/-- The clone path after a successful `Clone` from `url`: a complete bare clone. -/
def completeClone (url : String) : Node :=
  .dir { complete := true, config := .ok (clonedConfig url), fetched := [] }

/-- The world once the lock is granted: when another caller completed the clone
from `url` in the meantime, a clone path that was absent now holds that clone, and
its `.tmp` sibling has been renamed away. A clone path that is there stays as it
is: a mirror is never deleted by normal operation. -/
def World.arrive (arrived : Option String) (w : World) : World :=
  match w.clone, arrived with
  | .absent, some url => { w with parent := true, clone := completeClone url, tmp := .absent }
  | _, _ => w

/-- Modelled from the spec: `werf.WithHostLock` is not under src/. It is
`WithLock(ctx, name, opts, fn)` of the locking service: it fails with the lock
error when `fn` cannot begin, and otherwise runs `fn` under the lock and gives
back its error. The call waits for the holders before it: `whileWaiting` is what
they have done to the world by the time the lock is granted. -/
def WithHostLock (lockErr : Option String) (whileWaiting : World → World) (lockName : String)
    (f : World → Option String × World) (w : World) : Option String × World :=
  let w := w.log (.acquire lockName)
  match lockErr with
  | some e => (some e, w)
  | Option.none =>
    let (res, w) := f (whileWaiting w)
    (res, w.log (.release lockName))

namespace Remote

/-- Modelled from the spec: `Base.String` is not under src/; a repository is
printed by its name. -/
def repoString (repo : Remote) : String := repo.Name

/-- Method `withRemoteRepoLock`. -/
def withRemoteRepoLock (repo : Remote) (flt : Faults)
    (f : World → Option String × World) (w : World) : Option String × World :=
  WithHostLock flt.lockErr (World.arrive flt.arrived) repo.lockName f w

/-- Method `isCloneExists`: `os.Stat` on the clone path; `statErr` is the error
other than not-exist that this call of `os.Stat` answers, if any. -/
def isCloneExists (root : String) (repo : Remote) (statErr : Option String) (w : World) :
    Except String Bool × World :=
  let w := w.log (.stat (repo.GetClonePath root))
  match statErr, w.clone with
  | some err, _ => (.error ("cannot clone git repo: " ++ err), w)
  | Option.none, .dir _ => (.ok true, w)
  | Option.none, .absent => (.ok false, w)
  | Option.none, .inaccessible err => (.error ("cannot clone git repo: " ++ err), w)

/-- The deferred `os.RemoveAll(tmpPath)` of `Clone`; its error is dropped. -/
def cleanupTmp (root : String) (repo : Remote) (flt : Faults) (w : World) : World :=
  let w := w.log (.removeAll (repo.GetClonePath root ++ ".tmp"))
  match flt.cleanupErr with
  | some _ => w
  | Option.none => { w with tmp := .absent }

/-- The statements of the callback of `Clone` after the `defer`: `git.PlainClone`
into the `.tmp` sibling, then `os.Rename` onto the clone path. -/
def cloneIntoTmp (root : String) (repo : Remote) (flt : Faults) (w : World) :
    Option String × World :=
  let tmpPath := repo.GetClonePath root ++ ".tmp"
  let w := w.log (.plainClone tmpPath repo.Url)
  match flt.cloneErr with
  | some err =>
    (some err, { w with tmp := .dir { complete := false, config := .error "partial clone", fetched := [] } })
  | Option.none =>
    let w := { w with tmp := .dir { complete := true, config := .ok (clonedConfig repo.Url), fetched := [] } }
    let w := w.log (.rename tmpPath (repo.GetClonePath root))
    match flt.renameErr with
    | some err =>
      (some ("rename " ++ tmpPath ++ " to " ++ repo.GetClonePath root ++ " failed: " ++ err), w)
    | Option.none => (Option.none, { w with clone := w.tmp, tmp := .absent })

/-- The callback `Clone` runs under the host lock. -/
def cloneLocked (root : String) (repo : Remote) (flt : Faults) (w : World) :
    Option String × World :=
  match repo.isCloneExists root flt.restatErr w with
  | (.error err, w) => (some err, w)
  | (.ok true, w) => (Option.none, w)
  | (.ok false, w) =>
    let dir := filepath.Dir (repo.GetClonePath root)
    let w := w.log (.mkdirAll dir)
    match flt.mkdirErr with
    | some err => (some ("unable to create dir " ++ dir ++ ": " ++ err), w)
    | Option.none =>
      let w := { w with parent := true }
      let tmpPath := repo.GetClonePath root ++ ".tmp"
      let w := w.log (.removeAll tmpPath)
      match flt.removeStaleErr with
      | some err =>
        (some ("unable to prepare tmp path " ++ tmpPath ++ ": failed to remove: " ++ err), w)
      | Option.none =>
        let w := { w with tmp := .absent }
        let (res, w) := repo.cloneIntoTmp root flt w
        (res, repo.cleanupTmp root flt w)

/-- Method `Clone`: the pair `(isCloned, err)` it returns. -/
def Clone (root : String) (repo : Remote) (flt : Faults) (w : World) :
    (Bool × Option String) × World :=
  if repo.IsDryRun then ((false, Option.none), w)
  else
    match repo.isCloneExists root flt.statErr w with
    | (.error err, w) => ((false, some err), w)
    | (.ok true, w) => ((false, Option.none), w)
    | (.ok false, w) =>
      let (err, w) := repo.withRemoteRepoLock flt (repo.cloneLocked root flt) w
      ((true, err), w)

/-- The call `ini.Load` on the `config` file of the clone path. -/
def loadConfig (cfgPath : String) (w : World) : Except String Ini :=
  match w.clone with
  | .dir d => d.config
  | .absent => .error ("open " ++ cfgPath ++ ": no such file or directory")
  | .inaccessible err => .error err

/-- The call `cfg.SaveTo` on the `config` file of the clone path. -/
def saveConfig (cfg : Ini) (w : World) : World :=
  match w.clone with
  | .dir d => { w with clone := .dir { d with config := .ok cfg } }
  | _ => w

/-- The url go-git fetches the remote `remoteName` from: the one stored in the
config of the repository. -/
def storedUrl (d : RepoDir) (remoteName : String) : String :=
  match d.config with
  | .ok cfg => cfg.keyValue (remoteSection remoteName) "url"
  | .error _ => ""

/-- The callback `Fetch` runs under the host lock. -/
def fetchLocked (root : String) (repo : Remote) (flt : Faults) (w : World) :
    Option String × World :=
  let remoteName := "origin"
  let w := w.log (.plainOpen (repo.GetClonePath root))
  match flt.openErr, w.clone with
  | some err, _ => (some ("cannot open repo: " ++ err), w)
  | Option.none, .absent => (some ("cannot open repo: " ++ "repository does not exist"), w)
  | Option.none, .inaccessible err => (some ("cannot open repo: " ++ err), w)
  | Option.none, .dir d =>
    let w := w.log (.fetch remoteName)
    match flt.fetchAnswer with
    | .failed err =>
      (some ("cannot fetch remote `" ++ remoteName ++ "` of repo `" ++ repo.repoString ++ "`: " ++ err), w)
    | .alreadyUpToDate => (Option.none, w)
    | .done =>
      (Option.none, { w with clone := .dir { d with fetched := d.fetched ++ [storedUrl d remoteName] } })

/-- Method `Fetch`. The key of `cfg.Section(...).Key("url")` is never `nil`: ini.v1
creates it, empty, when the config has none. -/
def Fetch (root : String) (repo : Remote) (flt : Faults) (w : World) : Option String × World :=
  if repo.IsDryRun then (Option.none, w)
  else
    let cfgPath := filepath.Join [repo.GetClonePath root, "config"]
    let w := w.log (.iniLoad cfgPath)
    match loadConfig cfgPath w with
    | .error err => (some ("cannot load repo `" ++ repo.repoString ++ "` config: " ++ err), w)
    | .ok cfg =>
      let remoteName := "origin"
      if cfg.keyValue (remoteSection remoteName) "url" != repo.Url then
        let cfg := cfg.setValue (remoteSection remoteName) "url" repo.Url
        let w := w.log (.iniSave cfgPath)
        match flt.saveErr with
        | some err => (some ("cannot update url of repo `" ++ repo.repoString ++ "`: " ++ err), w)
        | Option.none => repo.withRemoteRepoLock flt (repo.fetchLocked root flt) (saveConfig cfg w)
      else repo.withRemoteRepoLock flt (repo.fetchLocked root flt) w

/-- Method `CloneAndFetch`. -/
def CloneAndFetch (root : String) (repo : Remote) (flt : Faults) (w : World) :
    Option String × World :=
  match repo.Clone root flt w with
  | ((_, some err), w) => (some err, w)
  | ((true, Option.none), w) => (Option.none, w)
  | ((false, Option.none), w) => repo.Fetch root flt w

/-- Modelled from the spec: `Base.remoteOriginUrl` is not under src/. It reads
the url stored for the remote `origin` in the config of the mirror at the clone
path, and is empty when none is stored. -/
def RemoteOriginUrl (_repo : Remote) (w : World) : Except String String :=
  match w.clone with
  | .dir d =>
    match d.config with
    | .ok cfg => .ok (cfg.keyValue (remoteSection "origin") "url")
    | .error err => .error err
  | .absent => .error "repository does not exist"
  | .inaccessible err => .error err

end Remote

/-- What `rawRepo.TagObject` answers: the tag object (its target hash), the
error `plumbing.ErrObjectNotFound`, or another error. -/
inductive TagObjectAnswer where
  | found (target : String)
  | objectNotFound
  | failed (err : String)
  deriving DecidableEq

/-- The two lookups of go-git's `Repository` that `TagCommit` uses: `Tag` answers
the hash of the tag reference, `TagObject` the tag object stored under a hash. -/
structure RawRepo where
  Tag : String → Except String String
  TagObject : String → TagObjectAnswer

/-- Method `TagCommit`; `opened` is the answer of `git.PlainOpenWithOptions` on the clone path. -/
def Remote.TagCommit (repo : Remote) (opened : Except String RawRepo) (tag : String) :
    Except String String :=
  match opened with
  | .error err => .error ("cannot open repo: " ++ err)
  | .ok rawRepo =>
    match rawRepo.Tag tag with
    | .error err =>
      .error ("bad tag '" ++ tag ++ "' of repo " ++ repo.repoString ++ ": " ++ err)
    | .ok refHash =>
      match rawRepo.TagObject refHash with
      | .found target => .ok target
      | .objectNotFound => .ok refHash
      | .failed err =>
        .error ("bad tag '" ++ tag ++ "' of repo " ++ repo.repoString ++ ": " ++ err)

/-! ## `pkg/true_git/patch.go` -/

/-- The struct `PatchOptions`; `PathMatcher` is the `Matches` of the path matcher. -/
structure PatchOptions where
  FromCommit : String
  ToCommit : String
  PathMatcher : String → Bool
  WithEntireFileContext : Bool
  WithBinary : Bool

/-- The fields of `exec.Cmd` that `writePatch` sets: the program, its arguments
and the working directory (empty when not set). -/
structure Cmd where
  Path : String
  Args : List String
  Dir : String
  deriving DecidableEq, Repr

/-- What `writePatch` asks of its surroundings before git runs: the working
directory `os.Getwd` answers, the answer of `checkSubmoduleConstraint`, and
`prepareWorkTree` as a function of its arguments. -/
structure PatchEnv where
  wd : Except String String
  submoduleConstraint : Option String
  prepareWorkTree : String → String → String → Bool → Except String String

/-- The calls `writePatch` makes up to the creation of the git command. -/
inductive PatchCall where
  | checkSubmoduleConstraint
  | prepareWorkTree (gitDir workTreeCacheDir commit : String) (withSubmodules : Bool)
  | execCommand (cmd : Cmd)
  deriving DecidableEq, Repr

/-- Function `writePatch` up to and including `exec.Command`: the git command it
creates, or the error it returns before, and the calls it made. What follows in
the source starts the command and drains its two pipes, each with
`consumePipeOutput`. -/
def writePatch (env : PatchEnv) (gitDir workTreeCacheDir : String)
    (withSubmodules : Bool) (opts : PatchOptions) : Except String Cmd × List PatchCall :=
  match filepath.Abs env.wd gitDir with
  | .error err => (.error ("bad git dir " ++ "" ++ ": " ++ err), [])
  | .ok gitDir =>
    match filepath.Abs env.wd workTreeCacheDir with
    | .error err => (.error ("bad work tree cache dir " ++ "" ++ ": " ++ err), [])
    | .ok workTreeCacheDir =>
      let calls : List PatchCall := if withSubmodules then [.checkSubmoduleConstraint] else []
      match (if withSubmodules then env.submoduleConstraint else none) with
      | some err => (.error err, calls)
      | none =>
        if withSubmodules && workTreeCacheDir == "" then
          (.error "provide work tree cache directory to enable submodules!", calls)
        else
          let commonGitOpts := ["-c", "diff.renames=false", "-c", "core.quotePath=false"]
          let commonGitOpts :=
            if opts.WithEntireFileContext then commonGitOpts ++ ["-c", "diff.context=999999999"]
            else commonGitOpts
          let diffOpts := ["--full-index"]
          let diffOpts :=
            if withSubmodules then diffOpts ++ ["--submodule=diff"]
            else diffOpts ++ ["--submodule=log"]
          let diffOpts := if opts.WithBinary then diffOpts ++ ["--binary"] else diffOpts
          if withSubmodules then
            let calls := calls ++
              [.prepareWorkTree gitDir workTreeCacheDir opts.ToCommit withSubmodules]
            match env.prepareWorkTree gitDir workTreeCacheDir opts.ToCommit withSubmodules with
            | .error err =>
              (.error ("cannot prepare work tree in cache " ++ workTreeCacheDir ++ " for commit "
                ++ opts.ToCommit ++ ": " ++ err), calls)
            | .ok workTreeDir =>
              let gitArgs := commonGitOpts ++ ["-C", workTreeDir]
              let gitArgs := gitArgs ++ ["diff"]
              let gitArgs := gitArgs ++ diffOpts
              let gitArgs := gitArgs ++ [opts.FromCommit, opts.ToCommit]
              let cmd : Cmd := { Path := "git", Args := gitArgs, Dir := workTreeDir }
              (.ok cmd, calls ++ [.execCommand cmd])
          else
            let gitArgs := commonGitOpts ++ ["-C", gitDir]
            let gitArgs := gitArgs ++ ["diff"]
            let gitArgs := gitArgs ++ diffOpts
            let gitArgs := gitArgs ++ [opts.FromCommit, opts.ToCommit]
            let cmd : Cmd := { Path := "git", Args := gitArgs, Dir := "" }
            (.ok cmd, calls ++ [.execCommand cmd])

/-- Function `Patch`: `writePatch` without submodules and without a work tree
cache directory. -/
def Patch (env : PatchEnv) (gitDir : String) (opts : PatchOptions) :
    Except String Cmd × List PatchCall :=
  writePatch env gitDir "" false opts

/-- Modelled from the spec: `withWorkTreeCacheLock` is not under src/. It is
`WithLock(ctx, name, opts, fn)` of the locking service for the work tree cache
directory: it fails with the lock error when `fn` cannot begin, and otherwise
runs `fn` and gives back its result. -/
def withWorkTreeCacheLock {α : Type} (lockErr : Option String) (f : Except String α × List PatchCall) :
    Except String α × List PatchCall :=
  match lockErr with
  | some err => (.error err, [])
  | none => f

/-- Function `PatchWithSubmodules`: `writePatch` with submodules, under the lock
of the work tree cache directory. -/
def PatchWithSubmodules (lockErr : Option String) (env : PatchEnv)
    (gitDir workTreeCacheDir : String) (opts : PatchOptions) :
    Except String Cmd × List PatchCall :=
  withWorkTreeCacheLock lockErr (writePatch env gitDir workTreeCacheDir true opts)

/-- A byte of pipe output. -/
abbrev Byte := Nat

/-- The error a `Read` returns next to its bytes: `io.EOF` or another error. -/
inductive ReadErr where
  | eof
  | other (err : String)
  deriving DecidableEq, Repr

/-- One answer of `pipe.Read`: the bytes placed in the buffer and the error. -/
structure ReadResult where
  data : List Byte
  err : Option ReadErr
  deriving DecidableEq, Repr

/-- How a run of `consumePipeOutput` ends: it returns an error or `nil`, it
panics on slicing the buffer beyond its length, or it waits for ever on a `Read`
that never answers. -/
inductive ConsumeEnd where
  | returned (err : Option String)
  | panicked
  | blocked
  deriving DecidableEq, Repr

/-- A run of `consumePipeOutput`: how it ends, the state of the chunk handler, and
the numbers of `Read` and `Close` calls made on the pipe. -/
structure ConsumeRun (σ : Type) where
  outcome : ConsumeEnd
  handler : σ
  reads : Nat
  closes : Nat

/-- The length of `chunkBuf`. -/
def chunkBufLen : Nat := 1024 * 64

/-- The loop of `consumePipeOutput` on a pipe whose `Read` calls answer `reads` in
turn and whose `Close` answers `closeErr`; `handleChunk` acts on a state `σ`;
`n` counts the `Read` calls made before. -/
def consumeLoop {σ : Type} (handleChunk : σ → List Byte → σ × Option String)
    (closeErr : Option String) : List ReadResult → σ → Nat → ConsumeRun σ
  | [], s, n => { outcome := .blocked, handler := s, reads := n + 1, closes := 0 }
  | r :: rest, s, n =>
    if r.data.length > chunkBufLen then
      { outcome := .panicked, handler := s, reads := n + 1, closes := 0 }
    else
      let (s, handleErr) := if r.data.length > 0 then handleChunk s r.data else (s, none)
      match handleErr with
      | some err => { outcome := .returned (some err), handler := s, reads := n + 1, closes := 0 }
      | none =>
        match r.err with
        | some .eof =>
          match closeErr with
          | some err =>
            { outcome := .returned (some ("error closing pipe: " ++ err)), handler := s,
              reads := n + 1, closes := 1 }
          | none => { outcome := .returned none, handler := s, reads := n + 1, closes := 1 }
        | some (.other err) =>
          { outcome := .returned (some ("error reading pipe: " ++ err)), handler := s,
            reads := n + 1, closes := 0 }
        | none => consumeLoop handleChunk closeErr rest s (n + 1)

/-- Function `consumePipeOutput`. -/
def consumePipeOutput {σ : Type} (reads : List ReadResult) (closeErr : Option String)
    (handleChunk : σ → List Byte → σ × Option String) (s : σ) : ConsumeRun σ :=
  consumeLoop handleChunk closeErr reads s 0

/-! ## Vocabulary of the statements: sample repositories, worlds and answers -/

/-- A remote opened under the name `werf` from `https://github.com/werf/werf`. -/
def repoWerf : Remote :=
  { Name := "werf", Url := "https://github.com/werf/werf", IsDryRun := false,
    Endpoint := { Protocol := "https", User := "", Password := "", Host := "github.com",
                  Port := 0, Path := "/werf/werf" } }

/-- The same url opened under the name `mirror`. -/
def repoMirror : Remote := { repoWerf with Name := "mirror" }

/-- Another remote, opened under the name `werf` as well. -/
def repoOther : Remote :=
  { Name := "werf", Url := "ssh://git@example.org:2222/team/app.git", IsDryRun := false,
    Endpoint := { Protocol := "ssh", User := "git", Password := "", Host := "example.org",
                  Port := 2222, Path := "/team/app.git" } }

/-- Two endpoints that are variants of one remote: the same protocol, host and
port, and paths that are equal or differ by one trailing slash. -/
def EndpointVariants (e1 e2 : Endpoint) : Prop :=
  e1.Protocol = e2.Protocol ∧ e1.Host = e2.Host ∧ e1.Port = e2.Port ∧
    (e2.Path = e1.Path ∨ e2.Path = e1.Path ++ "/" ∨ e1.Path = e2.Path ++ "/")

/-- The url of `repoWerf` with the scheme in upper case, opened under the name `mirror`. -/
def repoUpper : Remote :=
  { Name := "mirror", Url := "HTTPS://github.com/werf/werf", IsDryRun := false,
    Endpoint := { Protocol := "https", User := "", Password := "", Host := "github.com",
                  Port := 0, Path := "/werf/werf" } }

/-- The url of `repoUpper` with a trailing slash, opened under the name `mirror`. -/
def repoSlash : Remote :=
  { Name := "mirror", Url := "HTTPS://github.com/werf/werf/", IsDryRun := false,
    Endpoint := { Protocol := "https", User := "", Password := "", Host := "github.com",
                  Port := 0, Path := "/werf/werf/" } }

/-- The calls that belong to a clone: preparing the directories, `git.PlainClone`
and the rename. -/
def Event.isCloneStep : Event → Bool
  | .mkdirAll _ => true
  | .removeAll _ => true
  | .plainClone _ _ => true
  | .rename _ _ => true
  | .stat _ => false
  | .acquire _ => false
  | .release _ => false
  | .iniLoad _ => false
  | .iniSave _ => false
  | .plainOpen _ => false
  | .fetch _ => false

/-- The calls that belong to a fetch: reading and writing the config, opening
the mirror and fetching the remote. -/
def Event.isFetchStep : Event → Bool
  | .iniLoad _ => true
  | .iniSave _ => true
  | .plainOpen _ => true
  | .fetch _ => true
  | .stat _ => false
  | .acquire _ => false
  | .release _ => false
  | .mkdirAll _ => false
  | .removeAll _ => false
  | .plainClone _ _ => false
  | .rename _ _ => false

/-- The calls made on the way from the world `w0` to the world `w1`. -/
def World.since (w0 w1 : World) : List Event :=
  w1.trace.drop w0.trace.length

/-- A world in which nothing is cached yet. -/
def emptyWorld : World :=
  { parent := false, clone := .absent, tmp := .absent, trace := [] }

/-- A world with a complete mirror whose config stores `url` for `origin`. -/
def mirrorWorld (url : String) : World :=
  { parent := true,
    clone := .dir { complete := true, config := .ok (clonedConfig url), fetched := [] },
    tmp := .absent, trace := [] }

/-- The calls of a list made before the first call `e`. -/
def callsBefore (e : Event) : List Event → List Event
  | [] => []
  | c :: rest => if c = e then [] else c :: callsBefore e rest

/-- The clone and its cleanup fail: `git.PlainClone` answers an error and so does
the deferred `os.RemoveAll`. -/
def cloneAndCleanupFail : Faults :=
  { Faults.none with cloneErr := some "connection reset", cleanupErr := some "device busy" }

/-- Another caller completes the clone, from the same url written with a trailing
slash, while this one waits for the lock; every call of this one succeeds. -/
def cloneArrives : Faults :=
  { Faults.none with arrived := some "https://github.com/werf/werf/" }

/-- The host lock is not granted. -/
def lockTimeout : Faults :=
  { Faults.none with lockErr := some "lock timeout" }

/-- A mirror of `repoWerf` whose config still stores a previous url. -/
def driftedWorld : World := mirrorWorld "https://old.example.org/werf.git"

/-- A repository with an annotated tag `v1.0` (a tag object `aaaa` with target
`1111`) and a lightweight tag `nightly` on the commit `2222`. -/
def taggedRepo : RawRepo :=
  { Tag := fun tag =>
      if tag = "v1.0" then .ok "aaaa"
      else if tag = "nightly" then .ok "2222"
      else .error "tag not found",
    TagObject := fun hash =>
      if hash = "aaaa" then .found "1111"
      else if hash = "2222" then .objectNotFound
      else .failed "unexpected object type" }

/-- The argument list in the words of the specification: renames and path
quoting off, the context setting when the whole file is asked for, the directory,
`diff` with full-index hashes, the submodule mode, `--binary` when asked for, and
the two commits. -/
def specifiedGitArgs (withEntireFileContext withSubmodules withBinary : Bool)
    (dir fromCommit toCommit : String) : List String :=
  ["-c", "diff.renames=false", "-c", "core.quotePath=false"]
    ++ (if withEntireFileContext then ["-c", "diff.context=999999999"] else [])
    ++ ["-C", dir, "diff", "--full-index"]
    ++ [if withSubmodules then "--submodule=diff" else "--submodule=log"]
    ++ (if withBinary then ["--binary"] else [])
    ++ [fromCommit, toCommit]

/-- An environment in which the working directory is `/work`, the submodule
constraint holds and the work tree is prepared below the cache directory. -/
def patchEnv : PatchEnv :=
  { wd := .ok "/work",
    submoduleConstraint := none,
    prepareWorkTree := fun _ cacheDir commit _ => .ok (filepath.Join [cacheDir, commit]) }

/-- Patch options for the range `aaa..bbb` with every path matched. -/
def patchOpts (withEntireFileContext withBinary : Bool) : PatchOptions :=
  { FromCommit := "aaa", ToCommit := "bbb", PathMatcher := fun _ => true,
    WithEntireFileContext := withEntireFileContext, WithBinary := withBinary }

/-- The chunks a pipe delivers: the bytes of every `Read` that returned some. -/
def deliveredChunks (reads : List ReadResult) : List (List Byte) :=
  (reads.map (fun r => r.data)).filter (fun d => decide (0 < d.length))

/-- The bytes a pipe produced, in order. -/
def producedBytes (reads : List ReadResult) : List Byte :=
  (reads.map (fun r => r.data)).flatten

/-- A chunk handler that keeps every chunk it is called with and never fails. -/
def recordChunk (seen : List (List Byte)) (chunk : List Byte) :
    List (List Byte) × Option String :=
  (seen ++ [chunk], none)

/-- A pipe that answers two bytes, then one byte together with end-of-stream. -/
def shortPipe : List ReadResult :=
  [{ data := [104, 105], err := none }, { data := [], err := none },
   { data := [33], err := some .eof }]

/-! ## Lemmas on strings and paths -/

theorem string_append_left_cancel (p a b : String) (h : p ++ a = p ++ b) : a = b := by
  have h1 := congrArg String.data h
  simp only [String.data_append] at h1
  exact String.ext (List.append_cancel_left h1)

theorem string_ne_empty_data {a : String} (h : a ≠ "") : a.data ≠ [] := by
  intro hd
  exact h (String.ext hd)

namespace filepath

theorem splitElems_ne_nil (xs : List Char) : splitElems xs ≠ [] := by
  cases xs with
  | nil => simp [splitElems]
  | cons c cs =>
    unfold splitElems
    split
    · simp
    · split <;> simp

theorem splitElems_append_sep (xs : List Char) :
    splitElems (xs ++ ['/']) = splitElems xs ++ [[]] := by
  induction xs with
  | nil => simp [splitElems]
  | cons c cs ih =>
    have step : ∀ ys : List Char, splitElems (c :: ys) =
        if c = '/' then [] :: splitElems ys
        else
          match splitElems ys with
          | [] => [[c]]
          | e :: es => (c :: e) :: es := fun _ => rfl
    rw [List.cons_append, step, step, ih]
    split
    · simp
    · cases hs : splitElems cs with
      | nil => exact absurd hs (splitElems_ne_nil cs)
      | cons e es => simp

theorem cleanChars_append_sep (xs : List Char) (h : xs ≠ []) :
    cleanChars (xs ++ ['/']) = cleanChars xs := by
  cases xs with
  | nil => exact absurd rfl h
  | cons c cs =>
    have hs := splitElems_append_sep (c :: cs)
    simp only [List.cons_append] at hs
    simp only [List.cons_append, cleanChars, hs, List.foldl_append, List.foldl_cons,
      List.foldl_nil, cleanStep, if_true]

theorem Clean_append_sep (path : String) (h : path ≠ "") :
    Clean (path ++ "/") = Clean path := by
  unfold Clean
  rw [String.data_append]
  exact congrArg String.mk (cleanChars_append_sep path.data (string_ne_empty_data h))

theorem Join_three_trailing_sep (a b c : String) (h : a ≠ "") :
    Join [a, b, c ++ "/"] = Join [a, b, c] := by
  have e1 : "/".intercalate [a, b, c ++ "/"] = "/".intercalate [a, b, c] ++ "/" := by
    simp [String.intercalate, String.intercalate.go, String.append_assoc]
  have e2 : "/".intercalate [a, b, c] ≠ "" := by
    intro h0
    have h1 := congrArg String.data h0
    simp [String.intercalate, String.intercalate.go, String.data_append] at h1
  simp only [Join, if_neg h, e1]
  exact Clean_append_sep _ e2

end filepath

theorem protocol_elem_ne_empty (p : String) : "protocol-" ++ p ≠ "" := by
  intro h
  have h1 := congrArg String.length h
  simp [String.length_append] at h1
  exact absurd h1.1 (by decide)

/-! ## The repository identity and the lock name -/

/-- C1: the identity of a Remote (`getRepoID`, `getFilesystemRelativePathByEndpoint`)
is the path join of `protocol-<protocol>`, the host (followed by `:<port>` in decimal
when the port is greater than 0) and the endpoint path; `GetClonePath` is the git
repo cache root joined with the identity, the work-tree cache directory is the
work-tree cache root joined with it; and none of them reads the `Name`, the `Url`
or the dry-run flag. -/
theorem C1_identity_from_endpoint (root wtRoot : String) (repo : Remote) :
    repo.getRepoID =
        filepath.Join ["protocol-" ++ repo.Endpoint.Protocol,
          (if repo.Endpoint.Port > 0
            then repo.Endpoint.Host ++ ":" ++ sprintfD repo.Endpoint.Port
            else repo.Endpoint.Host),
          repo.Endpoint.Path]
      ∧ repo.getFilesystemRelativePathByEndpoint = repo.getRepoID
      ∧ repo.GetClonePath root = filepath.Join [root, repo.getRepoID]
      ∧ repo.getWorkTreeCacheDir wtRoot repo.getRepoID = filepath.Join [wtRoot, repo.getRepoID]
      ∧ (∀ (name url : String) (dry : Bool),
          let other : Remote :=
            { Name := name, Url := url, IsDryRun := dry, Endpoint := repo.Endpoint }
          other.getRepoID = repo.getRepoID
            ∧ other.GetClonePath root = repo.GetClonePath root
            ∧ other.getWorkTreeCacheDir wtRoot other.getRepoID
                = repo.getWorkTreeCacheDir wtRoot repo.getRepoID) := by
  refine ⟨?_, rfl, rfl, rfl, ?_⟩
  · simp only [Remote.getRepoID, Remote.getFilesystemRelativePathByEndpoint, String.append_assoc]
  · intro name url dry
    exact ⟨rfl, rfl, rfl⟩

/-- C5 at its failing input: `repoWerf` and `repoMirror`, one url opened under two
names, have one identity, one clone path and one `.tmp` sibling, but their locks
have different names, so they do not contend; and `repoWerf` and `repoOther`, two
urls opened under one name, have different identities and one lock name. -/
theorem C5_lock_not_keyed_by_identity :
    (repoWerf.getRepoID = repoMirror.getRepoID
        ∧ repoWerf.GetClonePath "/cache" = repoMirror.GetClonePath "/cache"
        ∧ repoWerf.GetClonePath "/cache" ++ ".tmp" = repoMirror.GetClonePath "/cache" ++ ".tmp"
        ∧ repoWerf.lockName ≠ repoMirror.lockName)
      ∧ (repoWerf.getRepoID ≠ repoOther.getRepoID
        ∧ repoWerf.lockName = repoOther.lockName) := by
  decide

/-- The lock of `withRemoteRepoLock` is named `remote_git_mapping.` followed by the
repository `Name`: two Remotes use one lock name exactly when they have one `Name`,
whatever their urls, endpoints and identities. -/
theorem lockName_eq_iff_name (r1 r2 : Remote) :
    r1.lockName = "remote_git_mapping." ++ r1.Name
      ∧ (r1.lockName = r2.lockName ↔ r1.Name = r2.Name) := by
  refine ⟨rfl, ?_, ?_⟩
  · intro h
    exact string_append_left_cancel _ _ _ h
  · intro h
    simp only [Remote.lockName, h]

/-! ## The endpoint of a url: scheme case and trailing slash -/

theorem transport.cut_append (c : Char) (xs ys : List Char) (h : c ∉ xs) :
    transport.cut c (xs ++ c :: ys) = some (xs, ys) := by
  induction xs with
  | nil => simp [transport.cut]
  | cons x xs ih =>
    have hx : x ≠ c := fun e => h (e ▸ List.mem_cons_self _ _)
    have hxs : c ∉ xs := fun m => h (List.mem_cons_of_mem _ m)
    simp [transport.cut, hx, ih hxs]

theorem takeWhile_append_sep (xs : List Char) :
    (xs ++ ['/']).takeWhile (fun c => c != '/') = xs.takeWhile (fun c => c != '/') := by
  induction xs with
  | nil => simp [List.takeWhile]
  | cons x xs ih =>
    by_cases hx : x = '/'
    · simp [List.takeWhile, hx]
    · simp [List.takeWhile, hx, ih]

theorem dropWhile_append_sep (xs : List Char) :
    (xs ++ ['/']).dropWhile (fun c => c != '/') = xs.dropWhile (fun c => c != '/') ++ ['/'] := by
  induction xs with
  | nil => simp [List.dropWhile]
  | cons x xs ih =>
    by_cases hx : x = '/'
    · simp [List.dropWhile, hx]
    · have hb : (x != '/') = true := by simp [hx]
      simp only [List.cons_append, List.dropWhile, hb]
      exact ih

/-- The url `scheme://rest` resolves as `parseURL` says on its two parts. -/
theorem transport.NewEndpoint_url (scheme rest : String) (hc : ':' ∉ scheme.data) :
    transport.NewEndpoint (scheme ++ "://" ++ rest)
      = transport.parseURL (scheme ++ "://" ++ rest) scheme.data ('/' :: '/' :: rest.data) := by
  have hd : (scheme ++ "://" ++ rest).data = scheme.data ++ ':' :: ('/' :: '/' :: rest.data) := by
    simp [String.data_append]
  simp only [transport.NewEndpoint, hd, transport.cut_append ':' _ _ hc]

/-- Two urls that differ in the letter case of the scheme, and in one trailing
slash, resolve to variants of one endpoint. -/
theorem transport.NewEndpoint_variants (scheme1 scheme2 rest : String) (e1 e2 e3 : Endpoint)
    (hc1 : ':' ∉ scheme1.data) (hc2 : ':' ∉ scheme2.data)
    (hcase : scheme1.data.map Char.toLower = scheme2.data.map Char.toLower)
    (h1 : transport.NewEndpoint (scheme1 ++ "://" ++ rest) = .ok e1)
    (h2 : transport.NewEndpoint (scheme2 ++ "://" ++ rest) = .ok e2)
    (h3 : transport.NewEndpoint (scheme2 ++ "://" ++ (rest ++ "/")) = .ok e3) :
    e2 = e1 ∧ e3 = { e1 with Path := e1.Path ++ "/" } := by
  rw [transport.NewEndpoint_url scheme1 rest hc1] at h1
  rw [transport.NewEndpoint_url scheme2 rest hc2] at h2
  rw [transport.NewEndpoint_url scheme2 (rest ++ "/") hc2] at h3
  simp only [transport.parseURL, String.data_append] at h1 h2 h3
  rw [takeWhile_append_sep, dropWhile_append_sep] at h3
  by_cases hv1 : transport.validScheme scheme1.data = true
  · by_cases hv2 : transport.validScheme scheme2.data = true
    · simp only [hv1, hv2, if_true, Except.ok.injEq] at h1 h2 h3
      subst h1 h2 h3
      rw [hcase]
      refine ⟨rfl, ?_⟩
      simp [transport.endpointOf, String.ext_iff, String.data_append]
    · simp [hv2] at h2
  · simp [hv1] at h1

theorem OpenRemoteRepo_ok (NewEndpoint : String → Except String Endpoint) (name url : String)
    (repo : Remote) (h : OpenRemoteRepo NewEndpoint name url = .ok repo) :
    NewEndpoint url = .ok repo.Endpoint ∧ repo.Name = name ∧ repo.Url = url := by
  unfold OpenRemoteRepo ValidateEndpoint at h
  cases hp : NewEndpoint url with
  | error e => simp [hp] at h
  | ok ep =>
    simp only [hp, Except.ok.injEq] at h
    subst h
    exact ⟨rfl, rfl, rfl⟩

/-- Remotes whose endpoints are variants of one endpoint have one identity and
one clone path. -/
theorem variants_share_identity (root : String) (r1 r2 : Remote)
    (hv : EndpointVariants r1.Endpoint r2.Endpoint) :
    r1.getRepoID = r2.getRepoID ∧ r1.GetClonePath root = r2.GetClonePath root := by
  obtain ⟨hp, hh, hport, hpath⟩ := hv
  have hid : r1.getRepoID = r2.getRepoID := by
    simp only [Remote.getRepoID, Remote.getFilesystemRelativePathByEndpoint, hp, hh, hport]
    rcases hpath with h | h | h
    · rw [h]
    · rw [h, filepath.Join_three_trailing_sep _ _ _ (protocol_elem_ne_empty _)]
    · rw [h, filepath.Join_three_trailing_sep _ _ _ (protocol_elem_ne_empty _)]
  refine ⟨hid, ?_⟩
  simp only [Remote.getRepoID] at hid
  simp only [Remote.GetClonePath, hid]

/-- C7: a Remote opened from the url `scheme1://rest` and a Remote opened, under
any name, from the same url with the scheme in another letter case, or from that
url with a trailing slash appended, have the same identity and the same clone path. -/
theorem C7_variants_share_identity (root name1 name2 scheme1 scheme2 rest : String)
    (r1 : Remote) (hc1 : ':' ∉ scheme1.data) (hc2 : ':' ∉ scheme2.data)
    (hcase : scheme1.data.map Char.toLower = scheme2.data.map Char.toLower)
    (h1 : OpenRemoteRepo transport.NewEndpoint name1 (scheme1 ++ "://" ++ rest) = .ok r1) :
    (∀ r2, OpenRemoteRepo transport.NewEndpoint name2 (scheme2 ++ "://" ++ rest) = .ok r2 →
        r1.getRepoID = r2.getRepoID ∧ r1.GetClonePath root = r2.GetClonePath root)
      ∧ (∀ r3,
          OpenRemoteRepo transport.NewEndpoint name2 (scheme2 ++ "://" ++ rest ++ "/") = .ok r3 →
          r1.getRepoID = r3.getRepoID ∧ r1.GetClonePath root = r3.GetClonePath root) := by
  have e1 := (OpenRemoteRepo_ok _ _ _ _ h1).1
  have key : ∀ r2 r3,
      OpenRemoteRepo transport.NewEndpoint name2 (scheme2 ++ "://" ++ rest) = .ok r2 →
      OpenRemoteRepo transport.NewEndpoint name2 (scheme2 ++ "://" ++ rest ++ "/") = .ok r3 →
      r2.Endpoint = r1.Endpoint
        ∧ r3.Endpoint = { r1.Endpoint with Path := r1.Endpoint.Path ++ "/" } := by
    intro r2 r3 h2 h3
    have e2 := (OpenRemoteRepo_ok _ _ _ _ h2).1
    have e3 := (OpenRemoteRepo_ok _ _ _ _ h3).1
    rw [String.append_assoc (scheme2 ++ "://") rest "/"] at e3
    exact transport.NewEndpoint_variants scheme1 scheme2 rest _ _ _ hc1 hc2 hcase e1 e2 e3
  have valid_of : ∀ (tail : String) (e : Endpoint),
      transport.NewEndpoint (scheme2 ++ "://" ++ tail) = .ok e →
      transport.validScheme scheme2.data = true := by
    intro tail e he
    rw [transport.NewEndpoint_url scheme2 tail hc2] at he
    by_cases hv : transport.validScheme scheme2.data = true
    · exact hv
    · simp [transport.parseURL, hv] at he
  have open_of : ∀ tail : String, transport.validScheme scheme2.data = true →
      ∃ r, OpenRemoteRepo transport.NewEndpoint name2 (scheme2 ++ "://" ++ tail) = .ok r := by
    intro tail hv2
    simp [OpenRemoteRepo, ValidateEndpoint, transport.NewEndpoint_url scheme2 tail hc2,
      transport.parseURL, hv2]
  refine ⟨?_, ?_⟩
  · intro r2 h2
    have hv2 := valid_of rest _ (OpenRemoteRepo_ok _ _ _ _ h2).1
    obtain ⟨r3, h3⟩ := open_of (rest ++ "/") hv2
    rw [← String.append_assoc (scheme2 ++ "://") rest "/"] at h3
    have h := (key r2 r3 h2 h3).1
    exact variants_share_identity root r1 r2 ⟨by rw [h], by rw [h], by rw [h], Or.inl (by rw [h])⟩
  · intro r3 h3
    have e3 := (OpenRemoteRepo_ok _ _ _ _ h3).1
    rw [String.append_assoc (scheme2 ++ "://") rest "/"] at e3
    have hv2 := valid_of (rest ++ "/") _ e3
    obtain ⟨r2, h2⟩ := open_of rest hv2
    have h := (key r2 r3 h2 h3).2
    exact variants_share_identity root r1 r3
      ⟨by rw [h], by rw [h], by rw [h], Or.inr (Or.inl (by rw [h]))⟩

/-- C7 at `https://github.com/werf/werf`, opened as `werf`, and
`HTTPS://github.com/werf/werf` and `HTTPS://github.com/werf/werf/`, opened as `mirror`. -/
theorem C7_variants_share_identity_witness :
    OpenRemoteRepo transport.NewEndpoint "werf" "https://github.com/werf/werf" = .ok repoWerf
      ∧ OpenRemoteRepo transport.NewEndpoint "mirror" "HTTPS://github.com/werf/werf"
          = .ok repoUpper
      ∧ OpenRemoteRepo transport.NewEndpoint "mirror" "HTTPS://github.com/werf/werf/"
          = .ok repoSlash
      ∧ (repoWerf.getRepoID = repoUpper.getRepoID
          ∧ repoWerf.GetClonePath "/cache" = repoUpper.GetClonePath "/cache")
      ∧ (repoWerf.getRepoID = repoSlash.getRepoID
          ∧ repoWerf.GetClonePath "/cache" = repoSlash.GetClonePath "/cache") :=
  ⟨by decide, by decide, by decide,
    (C7_variants_share_identity "/cache" "werf" "mirror" "https" "HTTPS" "github.com/werf/werf"
      repoWerf (by decide) (by decide) (by decide) (by decide)).1 repoUpper (by decide),
    (C7_variants_share_identity "/cache" "werf" "mirror" "https" "HTTPS" "github.com/werf/werf"
      repoWerf (by decide) (by decide) (by decide) (by decide)).2 repoSlash (by decide)⟩

/-! ## `CloneAndFetch` and `Clone` -/

theorem Clone_dry (root : String) (repo : Remote) (flt : Faults) (w : World)
    (h : repo.IsDryRun = true) : repo.Clone root flt w = ((false, none), w) := by
  simp [Remote.Clone, h]

theorem Clone_absent (root : String) (repo : Remote) (flt : Faults) (w : World)
    (hd : repo.IsDryRun = false) (hs : flt.statErr = none) (ha : w.clone = .absent) :
    repo.Clone root flt w =
      ((true, (repo.withRemoteRepoLock flt (repo.cloneLocked root flt)
                (w.log (.stat (repo.GetClonePath root)))).1),
       (repo.withRemoteRepoLock flt (repo.cloneLocked root flt)
                (w.log (.stat (repo.GetClonePath root)))).2) := by
  simp [Remote.Clone, hd, hs, Remote.isCloneExists, World.log, ha]

theorem Clone_exists (root : String) (repo : Remote) (flt : Faults) (w : World) (d : RepoDir)
    (hd : repo.IsDryRun = false) (hs : flt.statErr = none) (ha : w.clone = .dir d) :
    repo.Clone root flt w = ((false, none), w.log (.stat (repo.GetClonePath root))) := by
  simp [Remote.Clone, hd, hs, Remote.isCloneExists, World.log, ha]

theorem CloneAndFetch_of_cloned (root : String) (repo : Remote) (flt : Faults) (w w1 : World)
    (err : Option String) (h : repo.Clone root flt w = ((true, err), w1)) :
    repo.CloneAndFetch root flt w = (err, w1) := by
  cases err <;> simp [Remote.CloneAndFetch, h]

theorem CloneAndFetch_absent (root : String) (repo : Remote) (flt : Faults) (w : World)
    (hd : repo.IsDryRun = false) (hs : flt.statErr = none) (ha : w.clone = .absent) :
    repo.CloneAndFetch root flt w =
      repo.withRemoteRepoLock flt (repo.cloneLocked root flt)
        (w.log (.stat (repo.GetClonePath root))) :=
  CloneAndFetch_of_cloned root repo flt w _ _ (Clone_absent root repo flt w hd hs ha)

theorem CloneAndFetch_exists (root : String) (repo : Remote) (flt : Faults) (w : World)
    (d : RepoDir) (hd : repo.IsDryRun = false) (hs : flt.statErr = none)
    (ha : w.clone = .dir d) :
    repo.CloneAndFetch root flt w =
      repo.Fetch root flt (w.log (.stat (repo.GetClonePath root))) := by
  simp [Remote.CloneAndFetch, Clone_exists root repo flt w d hd hs ha]

/-- The clone run under the lock, from a world whose clone path is absent, when
the lock is not granted: the lock error, and nothing but the request is made. -/
theorem lockedClone_lock_refused (root : String) (repo : Remote) (flt : Faults) (w : World)
    (err : String) (hl : flt.lockErr = some err) :
    repo.withRemoteRepoLock flt (repo.cloneLocked root flt)
        (w.log (.stat (repo.GetClonePath root)))
      = (some err, (w.log (.stat (repo.GetClonePath root))).log (.acquire repo.lockName)) := by
  simp [Remote.withRemoteRepoLock, WithHostLock, hl]

/-- The clone run under the lock when the second `os.Stat` fails: the error of
`isCloneExists` is returned and no step of a clone is made. -/
theorem lockedClone_restat_fails (root : String) (repo : Remote) (flt : Faults) (w : World)
    (err : String) (hl : flt.lockErr = none) (hr : flt.restatErr = some err) :
    repo.withRemoteRepoLock flt (repo.cloneLocked root flt)
        (w.log (.stat (repo.GetClonePath root)))
      = (some ("cannot clone git repo: " ++ err),
          (((World.arrive flt.arrived
              ((w.log (.stat (repo.GetClonePath root))).log (.acquire repo.lockName))).log
            (.stat (repo.GetClonePath root))).log (.release repo.lockName))) := by
  simp [Remote.withRemoteRepoLock, WithHostLock, hl, hr, Remote.cloneLocked,
    Remote.isCloneExists]

/-- The clone run under the lock when another caller completed the clone while
the lock was awaited: the second check finds the clone path, `nil` is returned
and no step of a clone is made. -/
theorem lockedClone_arrived (root : String) (repo : Remote) (flt : Faults) (w : World)
    (url : String) (ha : w.clone = .absent) (hl : flt.lockErr = none)
    (hr : flt.restatErr = none) (hv : flt.arrived = some url) :
    repo.withRemoteRepoLock flt (repo.cloneLocked root flt)
        (w.log (.stat (repo.GetClonePath root)))
      = (none,
          { parent := true, clone := completeClone url, tmp := .absent,
            trace := w.trace ++ [.stat (repo.GetClonePath root), .acquire repo.lockName,
              .stat (repo.GetClonePath root), .release repo.lockName] }) := by
  simp [Remote.withRemoteRepoLock, WithHostLock, hl, hr, hv, Remote.cloneLocked,
    Remote.isCloneExists, World.arrive, World.log, ha, completeClone]

theorem fetch_calls_exists (root : String) (repo : Remote) (flt : Faults) (w : World)
    (d : RepoDir) (hd : repo.IsDryRun = false) (ha : w.clone = .dir d) :
    (∀ e ∈ w.since (repo.Fetch root flt (w.log (.stat (repo.GetClonePath root)))).2,
        e.isCloneStep = false)
      ∧ (∀ cfg, d.config = .ok cfg → flt.saveErr = none → flt.lockErr = none →
          flt.openErr = none →
          Event.fetch "origin"
            ∈ w.since (repo.Fetch root flt (w.log (.stat (repo.GetClonePath root)))).2)
      ∧ ((repo.Fetch root flt (w.log (.stat (repo.GetClonePath root)))).1 = none →
          Event.fetch "origin"
            ∈ w.since (repo.Fetch root flt (w.log (.stat (repo.GetClonePath root)))).2) := by
  rcases flt with ⟨lockErr, mkdirErr, removeStaleErr, cloneErr, renameErr, cleanupErr, saveErr,
    openErr, fetchAnswer, statErr, restatErr, arrived⟩
  rcases d with ⟨complete, config, fetched⟩
  cases config with
  | error e =>
    simp [Remote.Fetch, hd, Remote.loadConfig, World.log, World.since, ha, Event.isCloneStep]
  | ok cfg =>
    by_cases hu : cfg.keyValue (remoteSection "origin") "url" = repo.Url <;>
    cases lockErr <;> cases saveErr <;> cases openErr <;> cases fetchAnswer <;>
      simp [Remote.Fetch, hd, Remote.loadConfig, Remote.saveConfig, Remote.withRemoteRepoLock,
        WithHostLock, Remote.fetchLocked, World.arrive, World.log, World.since, ha, hu,
        Event.isCloneStep]

/-- C2 as stated fails: with the dry-run flag not set and the clone path absent,
when another caller completes the clone while the lock is awaited, `CloneAndFetch`
returns `nil` and has performed neither a clone nor a fetch: its only calls are
the two `os.Stat` and the lock. -/
theorem C2_no_clone_when_clone_arrives :
    repoWerf.IsDryRun = false ∧ emptyWorld.clone = .absent
      ∧ (repoWerf.CloneAndFetch "/cache" cloneArrives emptyWorld).1 = none
      ∧ (repoWerf.CloneAndFetch "/cache" cloneArrives emptyWorld).2.trace
          = [.stat "/cache/protocol-https/github.com/werf/werf",
             .acquire "remote_git_mapping.werf",
             .stat "/cache/protocol-https/github.com/werf/werf",
             .release "remote_git_mapping.werf"]
      ∧ (∀ e ∈ (repoWerf.CloneAndFetch "/cache" cloneArrives emptyWorld).2.trace,
          e.isCloneStep = false ∧ e.isFetchStep = false) := by
  decide

/-- C2, amended: with the dry-run flag set `CloneAndFetch` returns `nil` and leaves
the world untouched, without a single call. Without the flag and with the clone
path absent it is the clone run under the host lock and makes no call of a fetch:
when the clone path is still absent once the lock is held it calls `git.PlainClone`
(once the directories are there), when another caller has created the clone path
meanwhile it makes no call of a clone and returns `nil`, and whenever it returns
`nil` one of the two has happened. Without the flag and with the clone path present
it is `Fetch` and makes no call of a clone: it fetches `origin` once config, lock
and mirror are there, and whenever it returns `nil`. The error of `Clone`, of
`git.PlainClone`, of the `os.Stat` under the lock and of `Fetch` is returned as it is. -/
theorem C2_clone_if_absent_else_fetch (root : String) (repo : Remote) (flt : Faults)
    (w : World) :
    (repo.IsDryRun = true → repo.CloneAndFetch root flt w = (none, w))
      ∧ (repo.IsDryRun = false → flt.statErr = none → w.clone = .absent →
          repo.CloneAndFetch root flt w
              = repo.withRemoteRepoLock flt (repo.cloneLocked root flt)
                  (w.log (.stat (repo.GetClonePath root)))
            ∧ (∀ e ∈ w.since (repo.CloneAndFetch root flt w).2, e.isFetchStep = false)
            ∧ (flt.lockErr = none → flt.restatErr = none → flt.arrived = none →
                flt.mkdirErr = none → flt.removeStaleErr = none →
                Event.plainClone (repo.GetClonePath root ++ ".tmp") repo.Url
                    ∈ w.since (repo.CloneAndFetch root flt w).2
                  ∧ ∀ err, flt.cloneErr = some err →
                      (repo.CloneAndFetch root flt w).1 = some err)
            ∧ (flt.lockErr = none → flt.restatErr = none → ∀ url, flt.arrived = some url →
                (repo.CloneAndFetch root flt w).1 = none
                  ∧ (∀ e ∈ w.since (repo.CloneAndFetch root flt w).2, e.isCloneStep = false)
                  ∧ (repo.CloneAndFetch root flt w).2.clone = completeClone url)
            ∧ (flt.lockErr = none → ∀ err, flt.restatErr = some err →
                (repo.CloneAndFetch root flt w).1 = some ("cannot clone git repo: " ++ err)
                  ∧ (∀ e ∈ w.since (repo.CloneAndFetch root flt w).2, e.isCloneStep = false))
            ∧ ((repo.CloneAndFetch root flt w).1 = none →
                (Event.plainClone (repo.GetClonePath root ++ ".tmp") repo.Url
                    ∈ w.since (repo.CloneAndFetch root flt w).2
                  ∧ (repo.CloneAndFetch root flt w).2.clone = completeClone repo.Url)
                ∨ (∃ url, flt.arrived = some url
                  ∧ (∀ e ∈ w.since (repo.CloneAndFetch root flt w).2, e.isCloneStep = false)
                  ∧ (repo.CloneAndFetch root flt w).2.clone = completeClone url)))
      ∧ (repo.IsDryRun = false → flt.statErr = none → ∀ d, w.clone = .dir d →
          repo.CloneAndFetch root flt w
              = repo.Fetch root flt (w.log (.stat (repo.GetClonePath root)))
            ∧ (∀ e ∈ w.since (repo.CloneAndFetch root flt w).2, e.isCloneStep = false)
            ∧ (∀ cfg, d.config = .ok cfg → flt.saveErr = none → flt.lockErr = none →
                flt.openErr = none →
                Event.fetch "origin" ∈ w.since (repo.CloneAndFetch root flt w).2)
            ∧ ((repo.CloneAndFetch root flt w).1 = none →
                Event.fetch "origin" ∈ w.since (repo.CloneAndFetch root flt w).2))
      ∧ (∀ isCloned err w1, repo.Clone root flt w = ((isCloned, some err), w1) →
          repo.CloneAndFetch root flt w = (some err, w1))
      ∧ (∀ w1, repo.Clone root flt w = ((false, none), w1) →
          repo.CloneAndFetch root flt w = repo.Fetch root flt w1) := by
  refine ⟨?_, ?_, ?_, ?_, ?_⟩
  · intro hd
    simp [Remote.CloneAndFetch, Clone_dry root repo flt w hd, Remote.Fetch, hd]
  · intro hd hs ha
    rw [CloneAndFetch_absent root repo flt w hd hs ha]
    refine ⟨rfl, ?_⟩
    cases hl : flt.lockErr with
    | some e =>
      simp [Remote.withRemoteRepoLock, WithHostLock, hl, World.log, World.since,
        Event.isFetchStep]
    | none =>
      cases hr : flt.restatErr with
      | some e =>
        cases hv : flt.arrived <;>
          simp [Remote.withRemoteRepoLock, WithHostLock, hl, hr, hv, Remote.cloneLocked,
            Remote.isCloneExists, World.arrive, World.log, World.since, ha,
            Event.isFetchStep, Event.isCloneStep, completeClone]
      | none =>
        cases hv : flt.arrived with
        | some url =>
          simp [Remote.withRemoteRepoLock, WithHostLock, hl, hr, hv, Remote.cloneLocked,
            Remote.isCloneExists, World.arrive, World.log, ha, World.since,
            Event.isFetchStep, Event.isCloneStep, completeClone]
        | none =>
          rcases flt with ⟨lockErr, mkdirErr, removeStaleErr, cloneErr, renameErr, cleanupErr,
            saveErr, openErr, fetchAnswer, statErr, restatErr, arrived⟩
          simp only at hl hr hv
          subst hl hr hv
          cases mkdirErr <;> cases removeStaleErr <;> cases cloneErr <;>
            cases renameErr <;> cases cleanupErr <;>
            simp [Remote.withRemoteRepoLock, WithHostLock, Remote.cloneLocked,
              Remote.isCloneExists, Remote.cloneIntoTmp, Remote.cleanupTmp, World.arrive,
              World.log, World.since, ha, Event.isFetchStep, completeClone]
  · intro hd hs d ha
    rw [CloneAndFetch_exists root repo flt w d hd hs ha]
    exact ⟨rfl, fetch_calls_exists root repo flt w d hd ha⟩
  · intro isCloned err w1 h
    simp [Remote.CloneAndFetch, h]
  · intro w1 h
    simp [Remote.CloneAndFetch, h]

/-- C2 on an empty cache: with every call succeeding the clone is made and no
fetch; when another caller's clone arrives while the lock is awaited, `nil` is
returned without a call of a clone. -/
theorem C2_clone_if_absent_else_fetch_witness :
    repoWerf.IsDryRun = false ∧ emptyWorld.clone = .absent
      ∧ (∀ e ∈ emptyWorld.since (repoWerf.CloneAndFetch "/cache" Faults.none emptyWorld).2,
          e.isFetchStep = false)
      ∧ Event.plainClone (repoWerf.GetClonePath "/cache" ++ ".tmp") repoWerf.Url
          ∈ emptyWorld.since (repoWerf.CloneAndFetch "/cache" Faults.none emptyWorld).2
      ∧ (repoWerf.CloneAndFetch "/cache" cloneArrives emptyWorld).1 = none
      ∧ (repoWerf.CloneAndFetch "/cache" cloneArrives emptyWorld).2.clone
          = completeClone "https://github.com/werf/werf/" :=
  ⟨rfl, rfl,
    ((C2_clone_if_absent_else_fetch "/cache" repoWerf Faults.none emptyWorld).2.1
      rfl rfl rfl).2.1,
    (((C2_clone_if_absent_else_fetch "/cache" repoWerf Faults.none emptyWorld).2.1
      rfl rfl rfl).2.2.1 rfl rfl rfl rfl rfl).1,
    (((C2_clone_if_absent_else_fetch "/cache" repoWerf cloneArrives emptyWorld).2.1
      rfl rfl rfl).2.2.2.1 rfl rfl "https://github.com/werf/werf/" rfl).1,
    (((C2_clone_if_absent_else_fetch "/cache" repoWerf cloneArrives emptyWorld).2.1
      rfl rfl rfl).2.2.2.1 rfl rfl "https://github.com/werf/werf/" rfl).2.2⟩

/-- C3 as stated fails: on an empty cache, when `git.PlainClone` fails and the
deferred `os.RemoveAll` fails as well, `Clone` returns the clone error and the
clone path is absent, but the `.tmp` sibling is still there. -/
theorem C3_tmp_left_when_cleanup_fails :
    repoWerf.IsDryRun = false ∧ emptyWorld.clone = .absent
      ∧ (repoWerf.Clone "/cache" cloneAndCleanupFail emptyWorld).1
          = (true, some "connection reset")
      ∧ (repoWerf.Clone "/cache" cloneAndCleanupFail emptyWorld).2.clone = .absent
      ∧ (repoWerf.Clone "/cache" cloneAndCleanupFail emptyWorld).2.tmp ≠ .absent := by
  decide

/-- C3, amended: a non-dry-run `Clone` that starts with the clone path absent
calls `git.PlainClone` only on the `.tmp` sibling and only after `os.RemoveAll`
on it; afterwards the clone path is absent or holds a complete clone (its own, or
the one another caller completed while the lock was awaited), never a partial one;
when the clone step or the rename fails, `Clone` returns the error (the clone
error itself, the rename error wrapped), the clone path is absent, and the `.tmp`
sibling is absent provided the deferred `os.RemoveAll`, whose error is dropped,
succeeded. When the check under the lock finds the clone path, or fails, `Clone`
returns `nil`, or the error of that check, and makes no step of a clone. -/
theorem C3_clone_built_in_tmp (root : String) (repo : Remote) (flt : Faults) (w : World)
    (hd : repo.IsDryRun = false) (hs : flt.statErr = none) (ha : w.clone = .absent) :
    (∀ path url, Event.plainClone path url ∈ w.since (repo.Clone root flt w).2 →
        path = repo.GetClonePath root ++ ".tmp" ∧ url = repo.Url
          ∧ Event.removeAll (repo.GetClonePath root ++ ".tmp")
              ∈ callsBefore (.plainClone path url) (w.since (repo.Clone root flt w).2))
      ∧ ((repo.Clone root flt w).2.clone = .absent
          ∨ ∃ d, (repo.Clone root flt w).2.clone = .dir d ∧ d.complete = true)
      ∧ ((repo.Clone root flt w).2.clone = .absent
          ∨ (repo.Clone root flt w).2.clone = completeClone repo.Url
          ∨ ∃ url, flt.arrived = some url ∧ (repo.Clone root flt w).2.clone = completeClone url)
      ∧ (∀ err, (repo.Clone root flt w).1.2 = some err → flt.arrived = none →
          (repo.Clone root flt w).2.clone = .absent)
      ∧ (flt.lockErr = none → flt.restatErr = none → flt.arrived = none →
          flt.mkdirErr = none → flt.removeStaleErr = none →
          (∀ err, flt.cloneErr = some err →
            (repo.Clone root flt w).1 = (true, some err)
              ∧ (repo.Clone root flt w).2.clone = .absent
              ∧ (flt.cleanupErr = none → (repo.Clone root flt w).2.tmp = .absent))
          ∧ (∀ err, flt.cloneErr = none → flt.renameErr = some err →
            (repo.Clone root flt w).1
                = (true, some ("rename " ++ (repo.GetClonePath root ++ ".tmp") ++ " to "
                    ++ repo.GetClonePath root ++ " failed: " ++ err))
              ∧ (repo.Clone root flt w).2.clone = .absent
              ∧ (flt.cleanupErr = none → (repo.Clone root flt w).2.tmp = .absent)))
      ∧ (flt.lockErr = none → flt.restatErr = none → ∀ url, flt.arrived = some url →
          (repo.Clone root flt w).1 = (true, none)
            ∧ (∀ e ∈ w.since (repo.Clone root flt w).2, e.isCloneStep = false)
            ∧ (repo.Clone root flt w).2.clone = completeClone url)
      ∧ (flt.lockErr = none → ∀ err, flt.restatErr = some err →
          (repo.Clone root flt w).1 = (true, some ("cannot clone git repo: " ++ err))
            ∧ (∀ e ∈ w.since (repo.Clone root flt w).2, e.isCloneStep = false)) := by
  rw [Clone_absent root repo flt w hd hs ha]
  cases hl : flt.lockErr with
  | some e =>
    simp [Remote.withRemoteRepoLock, WithHostLock, hl, World.log, World.since, ha, callsBefore]
  | none =>
    cases hr : flt.restatErr with
    | some e =>
      cases hv : flt.arrived <;>
        simp [Remote.withRemoteRepoLock, WithHostLock, hl, hr, hv, Remote.cloneLocked,
          Remote.isCloneExists, World.arrive, World.log, World.since, ha, Event.isCloneStep, callsBefore,
          completeClone]
    | none =>
      cases hv : flt.arrived with
      | some url =>
        simp [Remote.withRemoteRepoLock, WithHostLock, hl, hr, hv, Remote.cloneLocked,
          Remote.isCloneExists, World.arrive, World.log, ha, World.since, Event.isCloneStep, callsBefore, completeClone]
      | none =>
        rcases flt with ⟨lockErr, mkdirErr, removeStaleErr, cloneErr, renameErr, cleanupErr,
          saveErr, openErr, fetchAnswer, statErr, restatErr, arrived⟩
        simp only at hl hr hv
        subst hl hr hv
        cases mkdirErr <;> cases removeStaleErr <;> cases cloneErr <;>
          cases renameErr <;> cases cleanupErr <;>
          simp [Remote.withRemoteRepoLock, WithHostLock, Remote.cloneLocked,
            Remote.isCloneExists, Remote.cloneIntoTmp, Remote.cleanupTmp, World.arrive,
            World.log, World.since, ha, callsBefore, completeClone]

/-- C3 on an empty cache when `git.PlainClone` fails and the cleanup succeeds. -/
theorem C3_clone_built_in_tmp_witness :
    (repoWerf.Clone "/cache" { Faults.none with cloneErr := some "connection reset" }
        emptyWorld).1 = (true, some "connection reset")
      ∧ (repoWerf.Clone "/cache" { Faults.none with cloneErr := some "connection reset" }
        emptyWorld).2.clone = .absent
      ∧ (repoWerf.Clone "/cache" { Faults.none with cloneErr := some "connection reset" }
        emptyWorld).2.tmp = .absent :=
  have h := ((C3_clone_built_in_tmp "/cache" repoWerf
    { Faults.none with cloneErr := some "connection reset" } emptyWorld rfl rfl rfl).2.2.2.2.1
      rfl rfl rfl rfl rfl).1 "connection reset" rfl
  ⟨h.1, h.2.1, h.2.2 rfl⟩

/-! ## `Fetch` -/

theorem Ini.lookup_setKey (keys : List (String × String)) (key v : String) :
    (Ini.setKey keys key v).lookup key = some v := by
  induction keys with
  | nil => simp [Ini.setKey, List.lookup]
  | cons kv rest ih =>
    obtain ⟨k, x⟩ := kv
    by_cases h : k = key
    · simp [Ini.setKey, h, List.lookup]
    · have h2 : (key == k) = false := by
        simp only [beq_eq_false_iff_ne, ne_eq]
        exact fun e => h e.symm
      simp [Ini.setKey, h, List.lookup, h2, ih]

theorem Ini.keyValue_setValue (cfg : Ini) (sec key v : String) :
    (Ini.setValue cfg sec key v).keyValue sec key = v := by
  induction cfg with
  | nil => simp [Ini.setValue, Ini.keyValue, Ini.get?, List.lookup]
  | cons entry rest ih =>
    obtain ⟨s, keys⟩ := entry
    by_cases h : s = sec
    · simp [Ini.setValue, h, Ini.keyValue, Ini.get?, List.lookup, Ini.lookup_setKey]
    · have h2 : (sec == s) = false := by
        simp only [beq_eq_false_iff_ne, ne_eq]
        exact fun e => h e.symm
      simp only [Ini.keyValue, Ini.get?] at ih
      simp only [Ini.setValue, h, Ini.keyValue, Ini.get?, List.lookup, h2, if_false]
      exact ih

/-- C4 at its failing input: `Fetch` on a mirror whose stored url has drifted,
with the host lock not granted, returns the lock error, and yet the config of
the clone directory has been rewritten, by a save made before the lock was
requested. -/
theorem C4_fetch_writes_config_before_lock :
    (repoWerf.Fetch "/cache" lockTimeout driftedWorld).1 = some "lock timeout"
      ∧ (repoWerf.Fetch "/cache" lockTimeout driftedWorld).2.clone ≠ driftedWorld.clone
      ∧ repoWerf.RemoteOriginUrl driftedWorld = .ok "https://old.example.org/werf.git"
      ∧ repoWerf.RemoteOriginUrl (repoWerf.Fetch "/cache" lockTimeout driftedWorld).2
          = .ok "https://github.com/werf/werf"
      ∧ (repoWerf.Fetch "/cache" lockTimeout driftedWorld).2.trace
          = [.iniLoad "/cache/protocol-https/github.com/werf/werf/config",
             .iniSave "/cache/protocol-https/github.com/werf/werf/config",
             .acquire "remote_git_mapping.werf"] := by
  decide

/-- When the host lock is not granted, `Clone` returns the lock error and leaves
the directory of the clone path, the clone path and its `.tmp` sibling as they were. -/
theorem Clone_lock_failure_changes_nothing (root : String) (repo : Remote) (flt : Faults)
    (w : World) (err : String) (hd : repo.IsDryRun = false) (hs : flt.statErr = none)
    (ha : w.clone = .absent) (hl : flt.lockErr = some err) :
    (repo.Clone root flt w).1 = (true, some err)
      ∧ (repo.Clone root flt w).2.clone = w.clone
      ∧ (repo.Clone root flt w).2.tmp = w.tmp
      ∧ (repo.Clone root flt w).2.parent = w.parent := by
  rw [Clone_absent root repo flt w hd hs ha]
  simp [Remote.withRemoteRepoLock, WithHostLock, hl, World.log]

/-- C6: a non-dry-run `Fetch` on a mirror whose config stores for `origin` a url
other than the configured `Url` saves the config with that url set to `Url` before
the fetch is started: a fetch of the remote is only ever called after the save, and
once it is called, or once `Fetch` returns `nil`, `RemoteOriginUrl` reads `Url`;
when the save succeeded the config holds `Url` and a fetch that completes has
fetched from `Url`; when the save fails `Fetch` returns that error and calls no
fetch. When the stored url equals `Url` the config is not saved. -/
theorem C6_config_rewritten_before_fetch (root : String) (repo : Remote) (flt : Faults)
    (w : World) (d : RepoDir) (cfg : Ini) (stored : String)
    (hd : repo.IsDryRun = false) (ha : w.clone = .dir d) (hc : d.config = .ok cfg)
    (hs : cfg.get? (remoteSection "origin") "url" = some stored) :
    (stored ≠ repo.Url →
        (∀ name, Event.fetch name ∈ w.since (repo.Fetch root flt w).2 →
          Event.iniSave (filepath.Join [repo.GetClonePath root, "config"])
              ∈ callsBefore (.fetch name) (w.since (repo.Fetch root flt w).2)
            ∧ repo.RemoteOriginUrl (repo.Fetch root flt w).2 = .ok repo.Url)
        ∧ ((repo.Fetch root flt w).1 = none →
            repo.RemoteOriginUrl (repo.Fetch root flt w).2 = .ok repo.Url)
        ∧ (flt.saveErr = none →
            (repo.Fetch root flt w).2.clone
                = .dir { d with
                    config := .ok (cfg.setValue (remoteSection "origin") "url" repo.Url),
                    fetched := (match flt.lockErr, flt.openErr, flt.fetchAnswer with
                      | none, none, .done => d.fetched ++ [repo.Url]
                      | _, _, _ => d.fetched) }
              ∧ repo.RemoteOriginUrl (repo.Fetch root flt w).2 = .ok repo.Url)
        ∧ (∀ err, flt.saveErr = some err →
            (repo.Fetch root flt w).1
                = some ("cannot update url of repo `" ++ repo.repoString ++ "`: " ++ err)
              ∧ ∀ name, Event.fetch name ∉ w.since (repo.Fetch root flt w).2))
      ∧ (stored = repo.Url →
          (∀ path, Event.iniSave path ∉ w.since (repo.Fetch root flt w).2)
            ∧ ∃ d', (repo.Fetch root flt w).2.clone = .dir d' ∧ d'.config = d.config) := by
  have hk : cfg.keyValue (remoteSection "origin") "url" = stored := by
    simp [Ini.keyValue, hs]
  rcases flt with ⟨lockErr, mkdirErr, removeStaleErr, cloneErr, renameErr, cleanupErr, saveErr,
    openErr, fetchAnswer, statErr, restatErr, arrived⟩
  rcases d with ⟨complete, config, fetched⟩
  simp only at hc
  subst hc
  by_cases hu : stored = repo.Url
  · cases lockErr <;> cases openErr <;> cases fetchAnswer <;>
      simp [Remote.Fetch, hd, Remote.loadConfig, Remote.withRemoteRepoLock,
        WithHostLock, Remote.fetchLocked, World.arrive, World.log, World.since, ha, hu, hk]
  · cases lockErr <;> cases saveErr <;> cases openErr <;> cases fetchAnswer <;>
      simp [Remote.Fetch, hd, Remote.loadConfig, Remote.saveConfig, Remote.withRemoteRepoLock,
        WithHostLock, Remote.fetchLocked, World.arrive, World.log, World.since, ha, hu, hk,
        callsBefore, Remote.RemoteOriginUrl, Remote.storedUrl, Ini.keyValue_setValue]

/-- C6 on the drifted mirror of `repoWerf` with every call succeeding. -/
theorem C6_config_rewritten_before_fetch_witness :
    repoWerf.RemoteOriginUrl driftedWorld = .ok "https://old.example.org/werf.git"
      ∧ repoWerf.RemoteOriginUrl (repoWerf.Fetch "/cache" Faults.none driftedWorld).2
          = .ok repoWerf.Url :=
  ⟨by decide,
    ((C6_config_rewritten_before_fetch "/cache" repoWerf Faults.none driftedWorld
      { complete := true, config := .ok (clonedConfig "https://old.example.org/werf.git"),
        fetched := [] }
      (clonedConfig "https://old.example.org/werf.git") "https://old.example.org/werf.git"
      rfl rfl rfl (by decide)).1 (by decide)).2.1 (by decide)⟩

/-! ## `TagCommit` -/

/-- C8: `TagCommit` fails when the tag lookup fails (the repository has no tag
of that name); when the lookup answers a reference, it returns the target of the
tag object stored under the hash of the reference, the hash of the reference
itself when that lookup answers `object not found`, and fails when that lookup
fails otherwise. It fails as well when the repository cannot be opened. -/
theorem C8_tag_commit (repo : Remote) (rawRepo : RawRepo) (tag : String) :
    (∀ err, rawRepo.Tag tag = .error err →
        repo.TagCommit (.ok rawRepo) tag
          = .error ("bad tag '" ++ tag ++ "' of repo " ++ repo.repoString ++ ": " ++ err))
      ∧ (∀ refHash, rawRepo.Tag tag = .ok refHash →
          (∀ target, rawRepo.TagObject refHash = .found target →
              repo.TagCommit (.ok rawRepo) tag = .ok target)
            ∧ (rawRepo.TagObject refHash = .objectNotFound →
              repo.TagCommit (.ok rawRepo) tag = .ok refHash)
            ∧ (∀ err, rawRepo.TagObject refHash = .failed err →
              repo.TagCommit (.ok rawRepo) tag
                = .error ("bad tag '" ++ tag ++ "' of repo " ++ repo.repoString ++ ": " ++ err)))
      ∧ (∀ err, repo.TagCommit (.error err) tag = .error ("cannot open repo: " ++ err)) := by
  refine ⟨?_, ?_, ?_⟩
  · intro err h
    simp [Remote.TagCommit, h]
  · intro refHash h
    refine ⟨?_, ?_, ?_⟩
    · intro target ht
      simp [Remote.TagCommit, h, ht]
    · intro ht
      simp [Remote.TagCommit, h, ht]
    · intro err ht
      simp [Remote.TagCommit, h, ht]
  · intro err
    rfl

/-- C8 on `taggedRepo`: the annotated tag resolves to its target, the lightweight
tag to its own hash, and an unknown tag fails. -/
theorem C8_tag_commit_witness :
    repoWerf.TagCommit (.ok taggedRepo) "v1.0" = .ok "1111"
      ∧ repoWerf.TagCommit (.ok taggedRepo) "nightly" = .ok "2222"
      ∧ repoWerf.TagCommit (.ok taggedRepo) "v2.0"
          = .error "bad tag 'v2.0' of repo werf: tag not found" :=
  ⟨((C8_tag_commit repoWerf taggedRepo "v1.0").2.1 "aaaa" (by decide)).1 "1111" (by decide),
    ((C8_tag_commit repoWerf taggedRepo "nightly").2.1 "2222" (by decide)).2.1 (by decide),
    (C8_tag_commit repoWerf taggedRepo "v2.0").1 "tag not found" (by decide)⟩

/-! ## `writePatch`: the git command -/

/-- C9: the git command `writePatch` creates has exactly the specified argument
list, with the absolute git dir as directory without submodules and the prepared
work tree with submodules; it is created whenever the paths resolve (and, with
submodules, the constraint holds and the work tree is prepared); and for a given
directory each of `WithEntireFileContext`, `withSubmodules` and `WithBinary` adds
or switches its own argument and leaves the arguments before and after it as
they are. -/
theorem C9_git_diff_arguments (env : PatchEnv) (gitDir workTreeCacheDir absGitDir absCacheDir : String)
    (opts : PatchOptions)
    (hg : filepath.Abs env.wd gitDir = .ok absGitDir)
    (hw : filepath.Abs env.wd workTreeCacheDir = .ok absCacheDir) :
    (writePatch env gitDir workTreeCacheDir false opts).1
        = .ok { Path := "git",
                Args := specifiedGitArgs opts.WithEntireFileContext false opts.WithBinary
                  absGitDir opts.FromCommit opts.ToCommit,
                Dir := "" }
      ∧ (∀ workTreeDir, env.submoduleConstraint = none → absCacheDir ≠ "" →
          env.prepareWorkTree absGitDir absCacheDir opts.ToCommit true = .ok workTreeDir →
          (writePatch env gitDir workTreeCacheDir true opts).1
            = .ok { Path := "git",
                    Args := specifiedGitArgs opts.WithEntireFileContext true opts.WithBinary
                      workTreeDir opts.FromCommit opts.ToCommit,
                    Dir := workTreeDir })
      ∧ (∀ withSubmodules cmd,
          (writePatch env gitDir workTreeCacheDir withSubmodules opts).1 = .ok cmd →
          ∃ dir, cmd.Args = specifiedGitArgs opts.WithEntireFileContext withSubmodules
                  opts.WithBinary dir opts.FromCommit opts.ToCommit
            ∧ (withSubmodules = false → dir = absGitDir)
            ∧ (withSubmodules = true →
                env.prepareWorkTree absGitDir absCacheDir opts.ToCommit true = .ok dir)
            ∧ (writePatch env gitDir workTreeCacheDir withSubmodules opts).2.getLast?
                = some (.execCommand cmd))
      ∧ (∀ (s b : Bool) (dir c1 c2 : String), ∃ front back,
          specifiedGitArgs true s b dir c1 c2
              = front ++ ["-c", "diff.context=999999999"] ++ back
            ∧ specifiedGitArgs false s b dir c1 c2 = front ++ back)
      ∧ (∀ (e b : Bool) (dir c1 c2 : String), ∃ front back,
          specifiedGitArgs e true b dir c1 c2 = front ++ ["--submodule=diff"] ++ back
            ∧ specifiedGitArgs e false b dir c1 c2 = front ++ ["--submodule=log"] ++ back)
      ∧ (∀ (e s : Bool) (dir c1 c2 : String), ∃ front back,
          specifiedGitArgs e s true dir c1 c2 = front ++ ["--binary"] ++ back
            ∧ specifiedGitArgs e s false dir c1 c2 = front ++ back) := by
  refine ⟨?_, ?_, ?_, ?_, ?_, ?_⟩
  · cases h1 : opts.WithEntireFileContext <;> cases h2 : opts.WithBinary <;>
      simp [writePatch, hg, hw, specifiedGitArgs, h1, h2]
  · intro workTreeDir hc hne hp
    cases h1 : opts.WithEntireFileContext <;> cases h2 : opts.WithBinary <;>
      simp [writePatch, hg, hw, specifiedGitArgs, h1, h2, hc, hne, hp]
  · intro withSubmodules cmd
    cases withSubmodules
    · cases h1 : opts.WithEntireFileContext <;> cases h2 : opts.WithBinary <;>
        simp [writePatch, hg, hw, specifiedGitArgs, h1, h2] <;>
        (intro h; subst h; simp)
    · cases hc : env.submoduleConstraint <;>
        cases hp : env.prepareWorkTree absGitDir absCacheDir opts.ToCommit true <;>
        cases h1 : opts.WithEntireFileContext <;> cases h2 : opts.WithBinary <;>
        by_cases hne : absCacheDir = "" <;>
        simp [writePatch, hg, hw, specifiedGitArgs, h1, h2, hc, hp, hne] <;>
        (intro h; subst h; simp)
  · intro s b dir c1 c2
    refine ⟨["-c", "diff.renames=false", "-c", "core.quotePath=false"],
      ["-C", dir, "diff", "--full-index"]
        ++ [if s then "--submodule=diff" else "--submodule=log"]
        ++ (if b then ["--binary"] else []) ++ [c1, c2], ?_, ?_⟩ <;>
      simp [specifiedGitArgs]
  · intro e b dir c1 c2
    refine ⟨["-c", "diff.renames=false", "-c", "core.quotePath=false"]
        ++ (if e then ["-c", "diff.context=999999999"] else [])
        ++ ["-C", dir, "diff", "--full-index"],
      (if b then ["--binary"] else []) ++ [c1, c2], ?_, ?_⟩ <;>
      simp [specifiedGitArgs]
  · intro e s dir c1 c2
    refine ⟨["-c", "diff.renames=false", "-c", "core.quotePath=false"]
        ++ (if e then ["-c", "diff.context=999999999"] else [])
        ++ ["-C", dir, "diff", "--full-index"]
        ++ [if s then "--submodule=diff" else "--submodule=log"],
      [c1, c2], ?_, ?_⟩ <;>
      simp [specifiedGitArgs]

/-- C9 for the range `aaa..bbb` with full context and binary content, without
and with submodules. -/
theorem C9_git_diff_arguments_witness :
    (writePatch patchEnv "repo/.git" "/cache/wt" false (patchOpts true true)).1
        = .ok { Path := "git",
                Args := ["-c", "diff.renames=false", "-c", "core.quotePath=false",
                         "-c", "diff.context=999999999", "-C", "/work/repo/.git", "diff",
                         "--full-index", "--submodule=log", "--binary", "aaa", "bbb"],
                Dir := "" }
      ∧ (writePatch patchEnv "repo/.git" "/cache/wt" true (patchOpts true true)).1
        = .ok { Path := "git",
                Args := ["-c", "diff.renames=false", "-c", "core.quotePath=false",
                         "-c", "diff.context=999999999", "-C", "/cache/wt/bbb", "diff",
                         "--full-index", "--submodule=diff", "--binary", "aaa", "bbb"],
                Dir := "/cache/wt/bbb" } :=
  ⟨(C9_git_diff_arguments patchEnv "repo/.git" "/cache/wt" "/work/repo/.git" "/cache/wt"
      (patchOpts true true) (by decide) (by decide)).1,
    (C9_git_diff_arguments patchEnv "repo/.git" "/cache/wt" "/work/repo/.git" "/cache/wt"
      (patchOpts true true) (by decide) (by decide)).2.1 "/cache/wt/bbb" rfl (by decide)
      (by decide)⟩

/-! ## `consumePipeOutput` -/

theorem deliveredChunks_join (reads : List ReadResult) :
    (deliveredChunks reads).flatten = producedBytes reads := by
  induction reads with
  | nil => rfl
  | cons r rest ih =>
    simp only [deliveredChunks, producedBytes, List.map_cons, List.flatten_cons] at ih ⊢
    by_cases h : 0 < r.data.length
    · simp [List.filter_cons, h, ih]
    · have h0 : r.data = [] := by
        cases hr : r.data with
        | nil => rfl
        | cons a l => simp [hr] at h
      simp [List.filter_cons, h0, ih]

theorem deliveredChunks_nonempty (reads : List ReadResult) :
    ∀ c ∈ deliveredChunks reads, 0 < c.length := by
  intro c hc
  simp only [deliveredChunks, List.mem_filter, decide_eq_true_eq] at hc
  exact hc.2

theorem consumeLoop_running {σ : Type} (h : σ → List Byte → σ) (closeErr : Option String)
    (pre rest : List ReadResult) (s : σ) (n : Nat)
    (hpre : ∀ r ∈ pre, r.err = none ∧ r.data.length ≤ chunkBufLen) :
    consumeLoop (fun s d => (h s d, none)) closeErr (pre ++ rest) s n
      = consumeLoop (fun s d => (h s d, none)) closeErr rest
          ((deliveredChunks pre).foldl h s) (n + pre.length) := by
  induction pre generalizing s n with
  | nil => rfl
  | cons r pre ih =>
    have hr := hpre r (List.mem_cons_self _ _)
    have hrest : ∀ r' ∈ pre, r'.err = none ∧ r'.data.length ≤ chunkBufLen :=
      fun r' hm => hpre r' (List.mem_cons_of_mem _ hm)
    have hlen : ¬ r.data.length > chunkBufLen := Nat.not_lt.mpr hr.2
    by_cases hpos : 0 < r.data.length
    · simp only [List.cons_append, consumeLoop, hlen, if_false, gt_iff_lt, hpos, if_true, hr.1]
      refine (ih _ _ hrest).trans ?_
      simp [deliveredChunks, List.filter_cons, hpos, Nat.add_assoc, Nat.add_comm 1]
    · simp only [List.cons_append, consumeLoop, hlen, if_false, gt_iff_lt, hpos, hr.1]
      refine (ih _ _ hrest).trans ?_
      simp [deliveredChunks, List.filter_cons, hpos, Nat.add_assoc, Nat.add_comm 1]

theorem deliveredChunks_append_last (pre : List ReadResult) (last : ReadResult) :
    deliveredChunks (pre ++ [last])
      = deliveredChunks pre ++ (if 0 < last.data.length then [last.data] else []) := by
  simp only [deliveredChunks, List.map_append, List.filter_append, List.map_cons, List.map_nil]
  by_cases h : 0 < last.data.length <;> simp [List.filter_cons, h]

theorem consumeLoop_chunk_bounds (closeErr : Option String) (reads : List ReadResult)
    (seen : List (List Byte)) (n : Nat)
    (hseen : ∀ c ∈ seen, 0 < c.length ∧ c.length ≤ chunkBufLen) :
    ∀ c ∈ (consumeLoop recordChunk closeErr reads seen n).handler,
      0 < c.length ∧ c.length ≤ chunkBufLen := by
  induction reads generalizing seen n with
  | nil => simpa [consumeLoop] using hseen
  | cons r rest ih =>
    by_cases hlen : r.data.length > chunkBufLen
    · simpa [consumeLoop, hlen] using hseen
    · have hle : r.data.length ≤ chunkBufLen := Nat.not_lt.mp hlen
      have hseen2 : ∀ c ∈ seen ++ [r.data], 0 < r.data.length →
          0 < c.length ∧ c.length ≤ chunkBufLen := by
        intro c hc hpos
        rcases List.mem_append.mp hc with hm | hm
        · exact hseen c hm
        · rw [List.mem_singleton.mp hm]
          exact ⟨hpos, hle⟩
      by_cases hpos : 0 < r.data.length
      · have hs : ∀ c ∈ seen ++ [r.data], 0 < c.length ∧ c.length ≤ chunkBufLen :=
          fun c hc => hseen2 c hc hpos
        cases herr : r.err with
        | none =>
          simp only [consumeLoop, hlen, if_false, hpos, if_true, recordChunk, herr]
          exact ih _ _ hs
        | some e =>
          cases e <;> cases closeErr <;>
            simpa [consumeLoop, hlen, hpos, recordChunk, herr] using hs
      · cases herr : r.err with
        | none =>
          simp only [consumeLoop, hlen, if_false, hpos, herr]
          exact ih _ _ hseen
        | some e =>
          cases e <;> cases closeErr <;>
            simpa [consumeLoop, hlen, hpos, herr] using hseen

/-- C10 as stated fails: on `shortPipe` with a handler that never fails, when
`Close` answers an error, `consumePipeOutput` delivers every chunk, closes the
pipe once, and does not return success but the error of the close. -/
theorem C10_close_error_returned :
    (consumePipeOutput shortPipe (some "file already closed") recordChunk []).handler
        = [[104, 105], [33]]
      ∧ (consumePipeOutput shortPipe (some "file already closed") recordChunk []).closes = 1
      ∧ (consumePipeOutput shortPipe (some "file already closed") recordChunk []).outcome
        = .returned (some "error closing pipe: file already closed")
      ∧ (consumePipeOutput shortPipe (some "file already closed") recordChunk []).outcome
        ≠ .returned none := by
  decide

/-- C10, amended: `consumePipeOutput` calls the handler only with non-empty
chunks of at most 65536 bytes. On a pipe whose reads answer `pre` without error
and then `last`, with a handler `h` that never fails, the handler has been called
with the non-empty chunks of `pre` and `last` in order, which together are the
bytes the pipe produced; when `last` carries end-of-stream the pipe is closed once
after `pre.length + 1` reads and the result is success when the close succeeds and
the `error closing pipe` error when it fails; when `last` carries another error
the result is the `error reading pipe` error, with no further read and no close. -/
theorem C10_chunks_delivered_in_order {σ : Type} (h : σ → List Byte → σ)
    (closeErr : Option String) (pre rest : List ReadResult) (last : ReadResult) (s : σ)
    (hpre : ∀ r ∈ pre, r.err = none ∧ r.data.length ≤ chunkBufLen)
    (hlast : last.data.length ≤ chunkBufLen) :
    chunkBufLen = 65536
      ∧ (∀ (reads : List ReadResult) (close : Option String),
          ∀ c ∈ (consumePipeOutput reads close recordChunk []).handler,
            0 < c.length ∧ c.length ≤ chunkBufLen)
      ∧ (deliveredChunks (pre ++ [last])).flatten = producedBytes (pre ++ [last])
      ∧ (last.err = some .eof →
          (consumePipeOutput (pre ++ last :: rest) closeErr (fun s d => (h s d, none)) s).handler
              = (deliveredChunks (pre ++ [last])).foldl h s
            ∧ (consumePipeOutput (pre ++ last :: rest) closeErr
                (fun s d => (h s d, none)) s).reads = pre.length + 1
            ∧ (consumePipeOutput (pre ++ last :: rest) closeErr
                (fun s d => (h s d, none)) s).closes = 1
            ∧ (consumePipeOutput (pre ++ last :: rest) closeErr
                (fun s d => (h s d, none)) s).outcome
              = (match closeErr with
                | none => .returned none
                | some err => .returned (some ("error closing pipe: " ++ err))))
      ∧ (∀ err, last.err = some (.other err) →
          (consumePipeOutput (pre ++ last :: rest) closeErr (fun s d => (h s d, none)) s).handler
              = (deliveredChunks (pre ++ [last])).foldl h s
            ∧ (consumePipeOutput (pre ++ last :: rest) closeErr
                (fun s d => (h s d, none)) s).reads = pre.length + 1
            ∧ (consumePipeOutput (pre ++ last :: rest) closeErr
                (fun s d => (h s d, none)) s).closes = 0
            ∧ (consumePipeOutput (pre ++ last :: rest) closeErr
                (fun s d => (h s d, none)) s).outcome
              = .returned (some ("error reading pipe: " ++ err))) := by
  have hlen : ¬ last.data.length > chunkBufLen := Nat.not_lt.mpr hlast
  refine ⟨by decide, ?_, deliveredChunks_join _, ?_, ?_⟩
  · intro reads close
    exact consumeLoop_chunk_bounds close reads [] 0 (by simp)
  · intro he
    simp only [consumePipeOutput, consumeLoop_running h closeErr pre (last :: rest) s 0 hpre,
      deliveredChunks_append_last, List.foldl_append]
    by_cases hpos : 0 < last.data.length <;> cases closeErr <;>
      simp [consumeLoop, hlen, hpos, he]
  · intro err he
    simp only [consumePipeOutput, consumeLoop_running h closeErr pre (last :: rest) s 0 hpre,
      deliveredChunks_append_last, List.foldl_append]
    by_cases hpos : 0 < last.data.length <;>
      simp [consumeLoop, hlen, hpos, he]

/-- C10 on `shortPipe` with a close that succeeds: both chunks arrive in order,
three reads are made, the pipe is closed once and the result is success. -/
theorem C10_chunks_delivered_in_order_witness :
    (consumePipeOutput shortPipe none (fun seen d => (seen ++ [d], none)) []).handler
        = [[104, 105], [33]]
      ∧ (consumePipeOutput shortPipe none (fun seen d => (seen ++ [d], none)) []).reads = 3
      ∧ (consumePipeOutput shortPipe none (fun seen d => (seen ++ [d], none)) []).closes = 1
      ∧ (consumePipeOutput shortPipe none (fun seen d => (seen ++ [d], none)) []).outcome
        = .returned none :=
  (C10_chunks_delivered_in_order (fun seen d => seen ++ [d]) none
    [{ data := [104, 105], err := none }, { data := [], err := none }] []
    { data := [33], err := some .eof } [] (by decide) (by decide)).2.2.2.1 rfl

/-! ## `writePatch`: the guard on the work tree cache directory -/

theorem cleanChars_ne_nil (path : List Char) : filepath.cleanChars path ≠ [] := by
  have key : ∀ x : List Char, (if x = [] then ['.'] else x) ≠ [] := by
    intro x
    by_cases h : x = [] <;> simp [h]
  cases path with
  | nil => simp [filepath.cleanChars]
  | cons c cs => exact key _

theorem Clean_ne_empty (path : String) : filepath.Clean path ≠ "" := by
  intro h
  have h1 := congrArg String.data h
  exact cleanChars_ne_nil path.data h1

theorem Abs_empty_is_working_dir (d : String) (hd : d ≠ "") :
    filepath.Abs (.ok d) "" = .ok (filepath.Clean d) := by
  have hj : "/".intercalate [d, ""] = d ++ "/" := by
    simp [String.intercalate, String.intercalate.go]
  simp only [filepath.Abs, filepath.IsAbs, filepath.Join, if_neg hd, hj]
  simp [filepath.Clean_append_sep d hd]

theorem Abs_ne_empty (wd : Except String String) (path dir : String)
    (hwd : ∀ d, wd = .ok d → d ≠ "") (h : filepath.Abs wd path = .ok dir) : dir ≠ "" := by
  unfold filepath.Abs at h
  split at h
  · injection h with h
    rw [← h]
    exact Clean_ne_empty path
  · cases wd with
    | error e => simp at h
    | ok d =>
      have hd : d ≠ "" := hwd d rfl
      simp only [filepath.Join, if_neg hd, Except.ok.injEq] at h
      rw [← h]
      exact Clean_ne_empty _

/-- With a working directory that `os.Getwd` answers and the submodule constraint
met, `writePatch` with submodules and an empty work tree cache directory takes
the working directory for the cache: the guard on the empty directory is passed,
the work tree is prepared there, and the git command is created when that succeeds. -/
theorem writePatch_empty_cache_dir (env : PatchEnv) (gitDir d : String) (opts : PatchOptions)
    (hw : env.wd = .ok d) (hd : d ≠ "") (hc : env.submoduleConstraint = none) :
    ∃ absGitDir, filepath.Abs env.wd gitDir = .ok absGitDir
      ∧ (∀ dir, env.prepareWorkTree absGitDir (filepath.Clean d) opts.ToCommit true = .ok dir →
          ∃ cmd, cmd.Dir = dir
            ∧ writePatch env gitDir "" true opts
              = (.ok cmd, [.checkSubmoduleConstraint,
                  .prepareWorkTree absGitDir (filepath.Clean d) opts.ToCommit true,
                  .execCommand cmd]))
      ∧ (∀ err, env.prepareWorkTree absGitDir (filepath.Clean d) opts.ToCommit true = .error err →
          writePatch env gitDir "" true opts
            = (.error ("cannot prepare work tree in cache " ++ filepath.Clean d ++ " for commit "
                ++ opts.ToCommit ++ ": " ++ err),
               [.checkSubmoduleConstraint,
                .prepareWorkTree absGitDir (filepath.Clean d) opts.ToCommit true])) := by
  have hcache : filepath.Abs env.wd "" = .ok (filepath.Clean d) := by
    rw [hw]
    exact Abs_empty_is_working_dir d hd
  have hne : filepath.Clean d ≠ "" := Clean_ne_empty d
  have hgit : ∃ absGitDir, filepath.Abs env.wd gitDir = .ok absGitDir := by
    unfold filepath.Abs
    split
    · exact ⟨_, rfl⟩
    · rw [hw]
      exact ⟨_, rfl⟩
  obtain ⟨absGitDir, hg⟩ := hgit
  refine ⟨absGitDir, hg, ?_, ?_⟩
  · intro dir hp
    cases h1 : opts.WithEntireFileContext <;> cases h2 : opts.WithBinary <;>
      simp [writePatch, hg, hcache, hc, hne, hp, h1, h2]
  · intro err hp
    simp [writePatch, hg, hcache, hc, hne, hp]

/-- C11 at its failing input: in the working directory `/work`, with the submodule
constraint met, `writePatch` with submodules and the empty work tree cache
directory does not return the error of the guard: it prepares a work tree with
`/work` as cache directory and creates the git command in it, and so does
`PatchWithSubmodules` once its lock is granted. -/
theorem C11_empty_cache_dir_not_rejected :
    writePatch patchEnv "repo/.git" "" true (patchOpts false false)
        = (.ok { Path := "git",
                 Args := ["-c", "diff.renames=false", "-c", "core.quotePath=false",
                          "-C", "/work/bbb", "diff", "--full-index", "--submodule=diff",
                          "aaa", "bbb"],
                 Dir := "/work/bbb" },
           [.checkSubmoduleConstraint,
            .prepareWorkTree "/work/repo/.git" "/work" "bbb" true,
            .execCommand
              { Path := "git",
                Args := ["-c", "diff.renames=false", "-c", "core.quotePath=false",
                         "-C", "/work/bbb", "diff", "--full-index", "--submodule=diff",
                         "aaa", "bbb"],
                Dir := "/work/bbb" }])
      ∧ (writePatch patchEnv "repo/.git" "" true (patchOpts false false)).1
        ≠ .error "provide work tree cache directory to enable submodules!"
      ∧ PatchWithSubmodules none patchEnv "repo/.git" "" (patchOpts false false)
        = writePatch patchEnv "repo/.git" "" true (patchOpts false false) := by
  decide

end Werf
